import Mathlib

/-!
# LAPACK++ call adapters

A shallow embedding of the wrappers of `src/*.cc`.  Every wrapper has the same
shape: range-check the 64-bit integer arguments, narrow them to `blas_int`
(32 bits here), translate the options to characters, build the pivot temporary
and the workspaces, invoke the Fortran kernel once or twice, and translate the
kernel's `info` into a return value or a raised failure.

Conventions of the embedding.

* Machine integers are values of `Int`; every place where the C++ value can
  leave its type applies the two's-complement reduction explicitly
  (`wrap64`, `toBlasInt`).
* The Fortran kernel is a parameter: a function from what it is handed (scalars
  by value, the narrow pivot temporary, the length of each workspace, a snapshot
  `D` of the floating-point buffers it can reach) to what it leaves behind.
* A wrapper is a function on a `Trace`: the kernel invocations made so far, the
  vectors constructed so far, and the caller's memory.  A raised failure keeps
  the trace, so what happened before the throw stays observable.
* Constructing a `std::vector` of negative length raises (`length_error`);
  any non-negative length succeeds.
* Floating-point slots written by a workspace query hold rationals; the
  conversion to `blas_int` truncates toward zero, and gives `INT_MIN` when the
  integer part is not a `blas_int`.
-/

set_option linter.dupNamespace false

namespace lapack

/-! ## Machine integers -/

/-- The value `std::numeric_limits<blas_int>::max()` of a 32-bit `blas_int`. -/
def blas_int_max : Int := 2147483647

/-- The values of type `int64_t`. -/
def isInt64 (v : Int) : Prop :=
  -9223372036854775808 ≤ v ∧ v ≤ 9223372036854775807

/-- The values of type `blas_int`. -/
def isBlasInt (v : Int) : Prop :=
  -2147483648 ≤ v ∧ v ≤ 2147483647

instance (v : Int) : Decidable (isInt64 v) := by
  unfold isInt64; infer_instance

instance (v : Int) : Decidable (isBlasInt v) := by
  unfold isBlasInt; infer_instance

/-- Two's-complement reading of an integer in 64 bits. -/
def wrap64 (v : Int) : Int :=
  (v + 9223372036854775808) % 18446744073709551616 - 9223372036854775808

/-- The cast `(blas_int) v`: the low 32 bits of `v`, read as a signed value. -/
def toBlasInt (v : Int) : Int :=
  (v + 2147483648) % 4294967296 - 2147483648

/-- The function `std::abs` on `int64_t`.  The negation is a 64-bit operation:
for `INT64_MIN`, the one value whose negation is not representable (the
language leaves the result undefined), the two's-complement negation gives
`INT64_MIN` again. -/
def abs64 (v : Int) : Int :=
  if v < 0 then wrap64 (-v) else v

/-- The condition of one `throw_if_( std::abs(v) > std::numeric_limits<blas_int>::max() )`. -/
def overflows (v : Int) : Bool :=
  decide (abs64 v > blas_int_max)

/-- Conversion of a floating-point value to an integer: truncation toward zero. -/
def truncQ (q : ℚ) : Int :=
  Int.tdiv q.num q.den

/-- A value of the element type of a routine: a real number is a scalar with no
imaginary part. -/
structure Scalar where
  re : ℚ
  im : ℚ
deriving DecidableEq

/-- The function `blas::real`: the real part of a scalar. -/
def real (z : Scalar) : ℚ :=
  z.re

/-- The conversion of a floating-point value to `blas_int`, as in
`blas_int lwork_ = real(qry_work[0])`: truncation toward zero when the integer
part is a `blas_int`.  Outside that range the language leaves the result
undefined; the conversion instruction then yields `INT_MIN`, and so does the
model. -/
def realToBlasInt (q : ℚ) : Int :=
  if isBlasInt (truncQ q) then truncQ q else -2147483648

/-- The initialisation `blas_int x = real(slot)` of a length from a query slot. -/
def slotLength (z : Scalar) : Int :=
  realToBlasInt (real z)

/-! ## Options -/

/-- The four element types a routine is overloaded on:
`float`, `double`, `std::complex<float>`, `std::complex<double>`. -/
inductive Elem
  | s
  | d
  | c
  | z
deriving DecidableEq, Repr

/-- Whether the element type is one of the two complex ones. -/
def Elem.isComplex : Elem → Bool
  | .s => false
  | .d => false
  | .c => true
  | .z => true

/-- The enumeration `lapack::Factored`. -/
inductive Factored
  | Factored
  | NotFactored
  | Equilibrate
deriving DecidableEq, Repr

/-- The enumeration `lapack::Op`. -/
inductive Op
  | NoTrans
  | Trans
  | ConjTrans
deriving DecidableEq, Repr

/-- The enumeration `lapack::Equed`. -/
inductive Equed
  | None
  | Row
  | Col
  | Both
deriving DecidableEq, Repr

/-- Modelled from the spec: the option translation functions of
`lapack_util.hh`, which is not part of the sources at hand.  Encoders are total
maps from an enumeration to a character; the decoder `char2equed` yields no
member on an unrecognised code, which the spec calls a defect that fails
fast. -/
structure Codes where
  factored2char : Factored → Char
  op2char : Op → Char
  equed2char : Equed → Char
  char2equed : Char → Option Equed

deriving instance DecidableEq for Except

/-! ## Failures and traces -/

/-- The ways a wrapper can fail. -/
inductive Failure
  /-- Raised by `throw_if_` on an argument that does not fit `blas_int`. -/
  | ArgumentOverflow
  /-- Raised by `throw Error()` on a negative `info`. -/
  | Error
  /-- Raised by the construction of a `std::vector` of negative length. -/
  | length_error
  /-- Raised when decoding a character that encodes no member. -/
  | BadCode
deriving DecidableEq, Repr

/-- The vectors a wrapper constructs. -/
inductive Buf
  | ipiv_
  | work
  | rwork
  | iwork
deriving DecidableEq, Repr

/-- What has happened so far in one call of a wrapper: the kernel invocations,
oldest first, the vectors constructed with their lengths, oldest first, and the
caller's memory. -/
structure Trace (C M : Type) where
  calls : List C
  allocs : List (Buf × Int)
  mem : M

/-- A step of a wrapper: from a trace to a value or a failure, and the trace
afterwards. -/
def Adapter (C M α : Type) : Type :=
  Trace C M → Except Failure α × Trace C M

namespace Adapter

variable {C M α β : Type}

/-- Normal completion of a step. -/
def ret (a : α) : Adapter C M α :=
  fun s => (.ok a, s)

/-- Sequencing: the second step runs only if the first did not fail. -/
def seq (m : Adapter C M α) (f : α → Adapter C M β) : Adapter C M β :=
  fun s =>
    match m s with
    | (.ok a, s1) => f a s1
    | (.error e, s1) => (.error e, s1)

instance : Monad (Adapter C M) where
  pure := ret
  bind := seq

/-- The statement `throw e`. -/
def raise (e : Failure) : Adapter C M α :=
  fun s => (.error e, s)

/-- Modelled from the spec: the helper `throw_if_` of `lapack_util.hh`, which
raises the overflow failure when its condition holds. -/
def throw_if_ (cond : Bool) : Adapter C M Unit :=
  fun s => if cond then (.error Failure.ArgumentOverflow, s) else (.ok (), s)

/-- The caller's memory as it is now. -/
def getMem : Adapter C M M :=
  fun s => (.ok s.mem, s)

/-- A write to the caller's memory. -/
def modifyMem (f : M → M) : Adapter C M Unit :=
  fun s => (.ok (), { s with mem := f s.mem })

/-- The construction `std::vector<T> v( len )`. -/
def vector (b : Buf) (len : Int) : Adapter C M Int :=
  fun s =>
    if len < 0 then (.error Failure.length_error, s)
    else (.ok len, { s with allocs := s.allocs ++ [(b, len)] })

/-- The construction `std::vector<blas_int> ipiv_( &ipiv[0], &ipiv[n] )`:
the first `n` elements of the caller's array, each converted to `blas_int`. -/
def vectorOfRange (ipiv : List Int) (n : Int) : Adapter C M (List Int) :=
  fun s =>
    if n < 0 then (.error Failure.length_error, s)
    else (.ok ((ipiv.take n.toNat).map toBlasInt),
          { s with allocs := s.allocs ++ [(Buf.ipiv_, n)] })

/-- One invocation of the kernel `K` on `c`. -/
def invoke {R : Type} (K : C → R) (c : C) : Adapter C M R :=
  fun s => (.ok (K c), { s with calls := s.calls ++ [c] })

/-- A whole call of a wrapper, from the caller's memory at entry. -/
def run (m : Adapter C M α) (mem : M) : Except Failure α × Trace C M :=
  m { calls := [], allocs := [], mem := mem }

end Adapter

open Adapter

/-- The algorithm `std::copy( v.begin(), v.end(), dst )`: the elements of `v`
overwrite the first `v.size()` elements of `dst`. -/
def copyInto (v dst : List Int) : List Int :=
  v ++ dst.drop v.length

/-! ## gbsvx -/

/-- What the kernel `LAPACK_?gbsvx` is handed. -/
structure GbsvxCall (D : Type) where
  fact_ : Char
  trans_ : Char
  n_ : Int
  kl_ : Int
  ku_ : Int
  nrhs_ : Int
  ldab_ : Int
  ldafb_ : Int
  ipiv_ : List Int
  equed_ : Char
  ldb_ : Int
  ldx_ : Int
  /-- Length of `work`. -/
  work : Int
  /-- Length of `iwork` (real overloads) or `rwork` (complex overloads). -/
  work2 : Int
  /-- The buffers `AB, AFB, R, C, B, X, rcond, ferr, berr` at the call. -/
  bufs : D
deriving DecidableEq

/-- What the kernel `LAPACK_?gbsvx` leaves behind. -/
structure GbsvxOut (D : Type) where
  /-- The element at each position of the pivot temporary. -/
  ipiv_ : Nat → Int
  equed_ : Char
  info_ : Int
  bufs : D

/-- The caller's memory that `gbsvx` can reach. -/
structure GbsvxMem (D : Type) where
  ipiv : List Int
  equed : Equed
  bufs : D

/-- The integer arguments of `gbsvx`. -/
structure GbsvxDims where
  n : Int
  kl : Int
  ku : Int
  nrhs : Int
  ldab : Int
  ldafb : Int
  ldb : Int
  ldx : Int

/-- The wrapper `gbsvx` of `src/gbsvx.cc`; `t` selects the overload. -/
def gbsvx {D : Type} (cd : Codes) (t : Elem) (K : GbsvxCall D → GbsvxOut D)
    (fact : Factored) (trans : Op) (a : GbsvxDims) :
    Adapter (GbsvxCall D) (GbsvxMem D) Int := do
  -- check for overflow
  throw_if_ (overflows a.n)
  throw_if_ (overflows a.kl)
  throw_if_ (overflows a.ku)
  throw_if_ (overflows a.nrhs)
  throw_if_ (overflows a.ldab)
  throw_if_ (overflows a.ldafb)
  throw_if_ (overflows a.ldb)
  throw_if_ (overflows a.ldx)
  let mem ← getMem
  let fact_ := cd.factored2char fact
  let trans_ := cd.op2char trans
  let equed_ := cd.equed2char mem.equed
  let n_ := toBlasInt a.n
  let kl_ := toBlasInt a.kl
  let ku_ := toBlasInt a.ku
  let nrhs_ := toBlasInt a.nrhs
  let ldab_ := toBlasInt a.ldab
  let ldafb_ := toBlasInt a.ldafb
  -- 32-bit copy
  let ipiv_ ← vectorOfRange mem.ipiv a.n
  let ldb_ := toBlasInt a.ldb
  let ldx_ := toBlasInt a.ldx
  -- allocate workspace
  let work ← vector Buf.work (if t.isComplex then 2 * a.n else 3 * a.n)
  let work2 ← vector (if t.isComplex then Buf.rwork else Buf.iwork) a.n
  let r ← invoke K
    { fact_ := fact_, trans_ := trans_, n_ := n_, kl_ := kl_, ku_ := ku_,
      nrhs_ := nrhs_, ldab_ := ldab_, ldafb_ := ldafb_, ipiv_ := ipiv_,
      equed_ := equed_, ldb_ := ldb_, ldx_ := ldx_, work := work,
      work2 := work2, bufs := mem.bufs }
  modifyMem (fun m => { m with bufs := r.bufs })
  if r.info_ < 0 then
    raise Failure.Error
  match cd.char2equed r.equed_ with
  | none => raise Failure.BadCode
  | some e =>
    modifyMem (fun m => { m with equed := e })
    modifyMem (fun m =>
      { m with ipiv := copyInto ((List.range ipiv_.length).map r.ipiv_) m.ipiv })
    return r.info_

/-- The argument record `gbsvx` hands to its kernel once the checks have passed
and the vectors are built, written out field by field. -/
def gbsvxArgs {D : Type} (cd : Codes) (t : Elem) (fact : Factored) (trans : Op)
    (a : GbsvxDims) (mem : GbsvxMem D) : GbsvxCall D :=
  { fact_ := cd.factored2char fact, trans_ := cd.op2char trans,
    n_ := toBlasInt a.n, kl_ := toBlasInt a.kl, ku_ := toBlasInt a.ku,
    nrhs_ := toBlasInt a.nrhs, ldab_ := toBlasInt a.ldab,
    ldafb_ := toBlasInt a.ldafb,
    ipiv_ := (mem.ipiv.take a.n.toNat).map toBlasInt,
    equed_ := cd.equed2char mem.equed, ldb_ := toBlasInt a.ldb,
    ldx_ := toBlasInt a.ldx,
    work := if t.isComplex then 2 * a.n else 3 * a.n,
    work2 := a.n, bufs := mem.bufs }

/-- The vectors `gbsvx` has constructed when it reaches the kernel. -/
def gbsvxAllocs (t : Elem) (n : Int) : List (Buf × Int) :=
  [(Buf.ipiv_, n), (Buf.work, if t.isComplex then 2 * n else 3 * n),
   (if t.isComplex then Buf.rwork else Buf.iwork, n)]

/-- The overflow checks of `gbsvx` all pass. -/
def GbsvxDims.checked (a : GbsvxDims) : Prop :=
  overflows a.n = false ∧ overflows a.kl = false ∧ overflows a.ku = false ∧
  overflows a.nrhs = false ∧ overflows a.ldab = false ∧
  overflows a.ldafb = false ∧ overflows a.ldb = false ∧ overflows a.ldx = false

instance (a : GbsvxDims) : Decidable a.checked := by
  unfold GbsvxDims.checked; infer_instance

/-! ## geqrf -/

/-- What the kernel `LAPACK_?geqrf` is handed. -/
structure GeqrfCall (D : Type) where
  m_ : Int
  n_ : Int
  lda_ : Int
  /-- Number of elements of the buffer passed as `work`. -/
  work : Int
  lwork_ : Int
  /-- The buffers `A, tau` at the call. -/
  bufs : D
deriving DecidableEq

/-- What the kernel `LAPACK_?geqrf` leaves behind. -/
structure GeqrfOut (D : Type) where
  /-- The first slot of the buffer passed as `work`. -/
  work0 : Scalar
  info_ : Int
  bufs : D

/-- The wrapper `geqrf` of `src/geqrf.cc` (the four overloads differ in the
element type only). -/
def geqrf {D : Type} (K : GeqrfCall D → GeqrfOut D) (m n lda : Int) :
    Adapter (GeqrfCall D) D Int := do
  -- check for overflow
  throw_if_ (overflows m)
  throw_if_ (overflows n)
  throw_if_ (overflows lda)
  let m_ := toBlasInt m
  let n_ := toBlasInt n
  let lda_ := toBlasInt lda
  -- query for workspace size
  let ineg_one : Int := -1
  let bufs ← getMem
  let q ← invoke K
    { m_ := m_, n_ := n_, lda_ := lda_, work := 1, lwork_ := ineg_one,
      bufs := bufs }
  modifyMem (fun _ => q.bufs)
  if q.info_ < 0 then
    raise Failure.Error
  let lwork_ := slotLength q.work0
  -- allocate workspace
  let work ← vector Buf.work lwork_
  let r ← invoke K
    { m_ := m_, n_ := n_, lda_ := lda_, work := work, lwork_ := lwork_,
      bufs := q.bufs }
  modifyMem (fun _ => r.bufs)
  if r.info_ < 0 then
    raise Failure.Error
  return r.info_

/-- The query invocation of `geqrf`. -/
def geqrfQuery {D : Type} (m n lda : Int) (bufs : D) : GeqrfCall D :=
  { m_ := toBlasInt m, n_ := toBlasInt n, lda_ := toBlasInt lda, work := 1,
    lwork_ := -1, bufs := bufs }

/-! ## heevd -/

/-- The enumeration `lapack::Job`, with the members the documentation of `heevd`
names. -/
inductive Job
  | NoVec
  | Vec
deriving DecidableEq, Repr

/-- The enumeration `lapack::Uplo`. -/
inductive Uplo
  | Upper
  | Lower
deriving DecidableEq, Repr

/-- Modelled from the spec: the encoders `job2char` and `uplo2char` of
`lapack_util.hh`, which is not part of the sources at hand. -/
structure JobCodes where
  job2char : Job → Char
  uplo2char : Uplo → Char

/-- What the kernel `LAPACK_?heevd` is handed. -/
structure HeevdCall (D : Type) where
  jobz_ : Char
  uplo_ : Char
  n_ : Int
  lda_ : Int
  /-- Number of elements of the buffer passed as `work`. -/
  work : Int
  lwork_ : Int
  /-- Number of elements of the buffer passed as `rwork`. -/
  rwork : Int
  lrwork_ : Int
  /-- Number of elements of the buffer passed as `iwork`. -/
  iwork : Int
  liwork_ : Int
  /-- The buffers `A, W` at the call. -/
  bufs : D
deriving DecidableEq

/-- What the kernel `LAPACK_?heevd` leaves behind. -/
structure HeevdOut (D : Type) where
  work0 : Scalar
  rwork0 : ℚ
  iwork0 : Int
  info_ : Int
  bufs : D

/-- The wrapper `heevd` of `src/heevd.cc` (two overloads, which differ in the
precision only). -/
def heevd {D : Type} (cd : JobCodes) (K : HeevdCall D → HeevdOut D)
    (jobz : Job) (uplo : Uplo) (n lda : Int) :
    Adapter (HeevdCall D) D Int := do
  -- check for overflow
  throw_if_ (overflows n)
  throw_if_ (overflows lda)
  let jobz_ := cd.job2char jobz
  let uplo_ := cd.uplo2char uplo
  let n_ := toBlasInt n
  let lda_ := toBlasInt lda
  -- query for workspace size
  let ineg_one : Int := -1
  let bufs ← getMem
  let q ← invoke K
    { jobz_ := jobz_, uplo_ := uplo_, n_ := n_, lda_ := lda_, work := 1,
      lwork_ := ineg_one, rwork := 1, lrwork_ := ineg_one, iwork := 1,
      liwork_ := ineg_one, bufs := bufs }
  modifyMem (fun _ => q.bufs)
  if q.info_ < 0 then
    raise Failure.Error
  let lwork_ := slotLength q.work0
  let lrwork_ := realToBlasInt q.rwork0
  let liwork_ := q.iwork0
  -- allocate workspace
  let work ← vector Buf.work lwork_
  let rwork ← vector Buf.rwork lrwork_
  let iwork ← vector Buf.iwork liwork_
  let r ← invoke K
    { jobz_ := jobz_, uplo_ := uplo_, n_ := n_, lda_ := lda_, work := work,
      lwork_ := lwork_, rwork := rwork, lrwork_ := lrwork_, iwork := iwork,
      liwork_ := liwork_, bufs := q.bufs }
  modifyMem (fun _ => r.bufs)
  if r.info_ < 0 then
    raise Failure.Error
  return r.info_

/-- The query invocation of `heevd`. -/
def heevdQuery {D : Type} (cd : JobCodes) (jobz : Job) (uplo : Uplo)
    (n lda : Int) (bufs : D) : HeevdCall D :=
  { jobz_ := cd.job2char jobz, uplo_ := cd.uplo2char uplo, n_ := toBlasInt n,
    lda_ := toBlasInt lda, work := 1, lwork_ := -1, rwork := 1, lrwork_ := -1,
    iwork := 1, liwork_ := -1, bufs := bufs }

/-- The real invocation of `heevd`, after a query that left `q`. -/
def heevdReal {D : Type} (cd : JobCodes) (jobz : Job) (uplo : Uplo)
    (n lda : Int) (q : HeevdOut D) : HeevdCall D :=
  { jobz_ := cd.job2char jobz, uplo_ := cd.uplo2char uplo, n_ := toBlasInt n,
    lda_ := toBlasInt lda, work := slotLength q.work0,
    lwork_ := slotLength q.work0, rwork := realToBlasInt q.rwork0,
    lrwork_ := realToBlasInt q.rwork0, iwork := q.iwork0,
    liwork_ := q.iwork0, bufs := q.bufs }

/-! ## geqrt3 -/

/-- What the kernel `LAPACK_?geqrt3` is handed. -/
structure Geqrt3Call (D : Type) where
  m_ : Int
  n_ : Int
  lda_ : Int
  ldt_ : Int
  /-- The buffers `A, T` at the call. -/
  bufs : D
deriving DecidableEq

/-- What the kernel `LAPACK_?geqrt3` leaves behind. -/
structure Geqrt3Out (D : Type) where
  info_ : Int
  bufs : D

/-- The wrapper `geqrt3` of `src/geqrt3.cc` (the four overloads differ in the
element type only). -/
def geqrt3 {D : Type} (K : Geqrt3Call D → Geqrt3Out D) (m n lda ldt : Int) :
    Adapter (Geqrt3Call D) D Int := do
  -- check for overflow
  throw_if_ (overflows m)
  throw_if_ (overflows n)
  throw_if_ (overflows lda)
  throw_if_ (overflows ldt)
  let m_ := toBlasInt m
  let n_ := toBlasInt n
  let lda_ := toBlasInt lda
  let ldt_ := toBlasInt ldt
  let bufs ← getMem
  let r ← invoke K
    { m_ := m_, n_ := n_, lda_ := lda_, ldt_ := ldt_, bufs := bufs }
  modifyMem (fun _ => r.bufs)
  if r.info_ < 0 then
    raise Failure.Error
  return r.info_

/-- The argument record `geqrt3` hands to its kernel. -/
def geqrt3Args {D : Type} (m n lda ldt : Int) (bufs : D) : Geqrt3Call D :=
  { m_ := toBlasInt m, n_ := toBlasInt n, lda_ := toBlasInt lda,
    ldt_ := toBlasInt ldt, bufs := bufs }

/-- The direct kernel call that the tests compare the wrapper with ("expect
lapackpp == lapacke"): the kernel invoked once on the same argument values, each
converted to the kernel's integer type at the call, with no range check and no
translation of the status.  Its outcome is the kernel's status and the buffers
`A, T` as the kernel left them. -/
def geqrt3Direct {D : Type} (K : Geqrt3Call D → Geqrt3Out D)
    (m n lda ldt : Int) (bufs : D) : Int × D :=
  ((K { m_ := toBlasInt m, n_ := toBlasInt n, lda_ := toBlasInt lda,
        ldt_ := toBlasInt ldt, bufs := bufs }).info_,
   (K { m_ := toBlasInt m, n_ := toBlasInt n, lda_ := toBlasInt lda,
        ldt_ := toBlasInt ldt, bufs := bufs }).bufs)

/-! ## ggsvd3 -/

/-- Modelled from the spec: the encoders `jobu2char`, `jobv2char` and
`jobq2char` of `lapack_util.hh`, which is not part of the sources at hand, over
the enumerations `lapack::JobU`, `lapack::JobV` and `lapack::JobQ`, whose members
the sources do not name. -/
structure GgsvdCodes (JobU JobV JobQ : Type) where
  jobu2char : JobU → Char
  jobv2char : JobV → Char
  jobq2char : JobQ → Char

/-- What the kernel `LAPACK_?ggsvd3` is handed. -/
structure Ggsvd3Call (D : Type) where
  jobu_ : Char
  jobv_ : Char
  jobq_ : Char
  m_ : Int
  n_ : Int
  p_ : Int
  k_ : Int
  l_ : Int
  lda_ : Int
  ldb_ : Int
  ldu_ : Int
  ldv_ : Int
  ldq_ : Int
  /-- Number of elements of the buffer passed as `work`. -/
  work : Int
  lwork_ : Int
  /-- Number of elements of the buffer passed as `rwork` (complex overloads). -/
  rwork : Option Int
  /-- Number of elements of the buffer passed as `iwork`. -/
  iwork : Int
  /-- The buffers `A, B, ALPHA, BETA, U, V, Q` at the call. -/
  bufs : D
deriving DecidableEq

/-- What the kernel `LAPACK_?ggsvd3` leaves behind. -/
structure Ggsvd3Out (D : Type) where
  k_ : Int
  l_ : Int
  work0 : Scalar
  info_ : Int
  bufs : D

/-- The caller's memory that `ggsvd3` can reach. -/
structure Ggsvd3Mem (D : Type) where
  k : Int
  l : Int
  bufs : D

/-- The integer arguments of `ggsvd3` that are passed by value. -/
structure Ggsvd3Dims where
  m : Int
  n : Int
  p : Int
  lda : Int
  ldb : Int
  ldu : Int
  ldv : Int
  ldq : Int

/-- The wrapper `ggsvd3` of `src/ggsvd3.cc`; `t` selects the overload. -/
def ggsvd3 {D JobU JobV JobQ : Type} (cd : GgsvdCodes JobU JobV JobQ) (t : Elem)
    (K : Ggsvd3Call D → Ggsvd3Out D) (jobu : JobU) (jobv : JobV) (jobq : JobQ)
    (a : Ggsvd3Dims) : Adapter (Ggsvd3Call D) (Ggsvd3Mem D) Int := do
  -- check for overflow
  throw_if_ (overflows a.m)
  throw_if_ (overflows a.n)
  throw_if_ (overflows a.p)
  throw_if_ (overflows a.lda)
  throw_if_ (overflows a.ldb)
  throw_if_ (overflows a.ldu)
  throw_if_ (overflows a.ldv)
  throw_if_ (overflows a.ldq)
  let mem ← getMem
  let jobu_ := cd.jobu2char jobu
  let jobv_ := cd.jobv2char jobv
  let jobq_ := cd.jobq2char jobq
  let m_ := toBlasInt a.m
  let n_ := toBlasInt a.n
  let p_ := toBlasInt a.p
  let k_ := toBlasInt mem.k
  let l_ := toBlasInt mem.l
  let lda_ := toBlasInt a.lda
  let ldb_ := toBlasInt a.ldb
  let ldu_ := toBlasInt a.ldu
  let ldv_ := toBlasInt a.ldv
  let ldq_ := toBlasInt a.ldq
  -- query for workspace size
  let ineg_one : Int := -1
  let q ← invoke K
    { jobu_ := jobu_, jobv_ := jobv_, jobq_ := jobq_, m_ := m_, n_ := n_,
      p_ := p_, k_ := k_, l_ := l_, lda_ := lda_, ldb_ := ldb_, ldu_ := ldu_,
      ldv_ := ldv_, ldq_ := ldq_, work := 1, lwork_ := ineg_one,
      rwork := if t.isComplex then some 1 else none, iwork := 1,
      bufs := mem.bufs }
  modifyMem (fun x => { x with bufs := q.bufs })
  if q.info_ < 0 then
    raise Failure.Error
  let lwork_ := slotLength q.work0
  -- allocate workspace
  let work ← vector Buf.work lwork_
  let rwork ←
    if t.isComplex then (vector Buf.rwork (2 * a.n)) >>= (fun x => pure (some x))
    else pure none
  let iwork ← vector Buf.iwork a.n
  let r ← invoke K
    { jobu_ := jobu_, jobv_ := jobv_, jobq_ := jobq_, m_ := m_, n_ := n_,
      p_ := p_, k_ := q.k_, l_ := q.l_, lda_ := lda_, ldb_ := ldb_,
      ldu_ := ldu_, ldv_ := ldv_, ldq_ := ldq_, work := work, lwork_ := lwork_,
      rwork := rwork, iwork := iwork, bufs := q.bufs }
  modifyMem (fun x => { x with bufs := r.bufs })
  if r.info_ < 0 then
    raise Failure.Error
  modifyMem (fun x => { x with k := r.k_ })
  modifyMem (fun x => { x with l := r.l_ })
  return r.info_

/-- The overflow checks of `ggsvd3` all pass. -/
def Ggsvd3Dims.checked (a : Ggsvd3Dims) : Prop :=
  overflows a.m = false ∧ overflows a.n = false ∧ overflows a.p = false ∧
  overflows a.lda = false ∧ overflows a.ldb = false ∧ overflows a.ldu = false ∧
  overflows a.ldv = false ∧ overflows a.ldq = false

instance (a : Ggsvd3Dims) : Decidable a.checked := by
  unfold Ggsvd3Dims.checked; infer_instance

/-- The query invocation of `ggsvd3`. -/
def ggsvd3Query {D JobU JobV JobQ : Type} (cd : GgsvdCodes JobU JobV JobQ)
    (t : Elem) (jobu : JobU) (jobv : JobV) (jobq : JobQ) (a : Ggsvd3Dims)
    (mem : Ggsvd3Mem D) : Ggsvd3Call D :=
  { jobu_ := cd.jobu2char jobu, jobv_ := cd.jobv2char jobv,
    jobq_ := cd.jobq2char jobq, m_ := toBlasInt a.m, n_ := toBlasInt a.n,
    p_ := toBlasInt a.p, k_ := toBlasInt mem.k, l_ := toBlasInt mem.l,
    lda_ := toBlasInt a.lda, ldb_ := toBlasInt a.ldb, ldu_ := toBlasInt a.ldu,
    ldv_ := toBlasInt a.ldv, ldq_ := toBlasInt a.ldq, work := 1, lwork_ := -1,
    rwork := if t.isComplex then some 1 else none, iwork := 1,
    bufs := mem.bufs }

/-! ## hecon_3 -/

/-- What the kernel `LAPACK_?hecon_3` is handed. -/
structure Hecon3Call (D F : Type) where
  uplo_ : Char
  n_ : Int
  lda_ : Int
  ipiv_ : List Int
  anorm : F
  /-- Length of `work`. -/
  work : Int
  /-- Length of `iwork`. -/
  iwork : Int
  /-- The read-only buffers `A, E`. -/
  bufs : D
deriving DecidableEq

/-- What the kernel `LAPACK_?hecon_3` leaves behind. -/
structure Hecon3Out (F : Type) where
  /-- The element at each position of the pivot temporary. -/
  ipiv_ : Nat → Int
  rcond : F
  info_ : Int

/-- The caller's memory that `hecon_3` can reach. -/
structure Hecon3Mem (D F : Type) where
  ipiv : List Int
  rcond : F
  bufs : D

/-- The wrapper `hecon_3` of `src/hecon_3.cc` (two overloads, which differ in
the precision only). -/
def hecon_3 {D F : Type} (cd : JobCodes) (K : Hecon3Call D F → Hecon3Out F)
    (uplo : Uplo) (n lda : Int) (anorm : F) :
    Adapter (Hecon3Call D F) (Hecon3Mem D F) Int := do
  -- check for overflow
  throw_if_ (overflows n)
  throw_if_ (overflows lda)
  let mem ← getMem
  let uplo_ := cd.uplo2char uplo
  let n_ := toBlasInt n
  let lda_ := toBlasInt lda
  -- 32-bit copy
  let ipiv_ ← vectorOfRange mem.ipiv n
  -- allocate workspace
  let work ← vector Buf.work (2 * n)
  let iwork ← vector Buf.iwork n
  let r ← invoke K
    { uplo_ := uplo_, n_ := n_, lda_ := lda_, ipiv_ := ipiv_, anorm := anorm,
      work := work, iwork := iwork, bufs := mem.bufs }
  modifyMem (fun x => { x with rcond := r.rcond })
  if r.info_ < 0 then
    raise Failure.Error
  return r.info_

/-- The argument record `hecon_3` hands to its kernel. -/
def hecon3Args {D F : Type} (cd : JobCodes) (uplo : Uplo) (n lda : Int)
    (anorm : F) (mem : Hecon3Mem D F) : Hecon3Call D F :=
  { uplo_ := cd.uplo2char uplo, n_ := toBlasInt n, lda_ := toBlasInt lda,
    ipiv_ := (mem.ipiv.take n.toNat).map toBlasInt, anorm := anorm,
    work := 2 * n, iwork := n, bufs := mem.bufs }

/-! ## gesdd -/

/-- The product `a * b` of two `blas_int` values, as a `blas_int`. -/
def mul32 (a b : Int) : Int :=
  toBlasInt (a * b)

/-- The sum `a + b` of two `blas_int` values, as a `blas_int`. -/
def add32 (a b : Int) : Int :=
  toBlasInt (a + b)

/-- The body of `if (lrwork_ == 0) { ... }` in the complex overloads of `gesdd`:
the length of `rwork` taken from the documentation, computed in `blas_int`
arithmetic from the 64-bit `m` and `n`, and floored at `1`. -/
def lrworkFallback (jobz : Job) (m n : Int) : Int :=
  let mx := toBlasInt (max m n)
  let mn := toBlasInt (min m n)
  let lrwork_ :=
    if jobz = Job.NoVec then
      mul32 7 mn
    else
      max (add32 (mul32 (mul32 5 mn) mn) (mul32 5 mn))
        (add32 (add32 (mul32 (mul32 2 mx) mn) (mul32 (mul32 2 mn) mn)) mn)
  max 1 lrwork_

/-- What the kernel `LAPACK_?gesdd` is handed. -/
structure GesddCall (D : Type) where
  jobz_ : Char
  m_ : Int
  n_ : Int
  lda_ : Int
  ldu_ : Int
  ldvt_ : Int
  /-- Number of elements of the buffer passed as `work`. -/
  work : Int
  lwork_ : Int
  /-- Number of elements of the buffer passed as `rwork` (complex overloads). -/
  rwork : Option Int
  /-- Number of elements of the buffer passed as `iwork`. -/
  iwork : Int
  /-- The buffers `A, S, U, VT` at the call. -/
  bufs : D
deriving DecidableEq

/-- What the kernel `LAPACK_?gesdd` leaves behind. -/
structure GesddOut (D : Type) where
  /-- The first slot of the buffer passed as `work`. -/
  work0 : Scalar
  /-- The first slot of the buffer passed as `rwork`; it holds `0` before the
  query (complex overloads). -/
  rwork0 : ℚ
  info_ : Int
  bufs : D

/-- The wrapper `gesdd` of `src/gesdd.cc`; `t` selects the overload. -/
def gesdd {D : Type} (cd : JobCodes) (t : Elem) (K : GesddCall D → GesddOut D)
    (jobz : Job) (m n lda ldu ldvt : Int) : Adapter (GesddCall D) D Int := do
  -- check for overflow
  throw_if_ (overflows m)
  throw_if_ (overflows n)
  throw_if_ (overflows lda)
  throw_if_ (overflows ldu)
  throw_if_ (overflows ldvt)
  let jobz_ := cd.job2char jobz
  let m_ := toBlasInt m
  let n_ := toBlasInt n
  let lda_ := toBlasInt lda
  let ldu_ := toBlasInt ldu
  let ldvt_ := toBlasInt ldvt
  -- query for workspace size
  let ineg_one : Int := -1
  let bufs ← getMem
  let q ← invoke K
    { jobz_ := jobz_, m_ := m_, n_ := n_, lda_ := lda_, ldu_ := ldu_,
      ldvt_ := ldvt_, work := 1, lwork_ := ineg_one,
      rwork := if t.isComplex then some 1 else none, iwork := 1, bufs := bufs }
  modifyMem (fun _ => q.bufs)
  if q.info_ < 0 then
    raise Failure.Error
  let lwork_ := slotLength q.work0
  let lrwork0 := realToBlasInt q.rwork0
  let lrwork_ := if lrwork0 = 0 then lrworkFallback jobz m n else lrwork0
  -- allocate workspace
  let work ← vector Buf.work lwork_
  let rwork ←
    if t.isComplex then (vector Buf.rwork lrwork_) >>= (fun x => pure (some x))
    else pure none
  let iwork ← vector Buf.iwork (wrap64 (8 * min m n))
  let r ← invoke K
    { jobz_ := jobz_, m_ := m_, n_ := n_, lda_ := lda_, ldu_ := ldu_,
      ldvt_ := ldvt_, work := work, lwork_ := lwork_, rwork := rwork,
      iwork := iwork, bufs := q.bufs }
  modifyMem (fun _ => r.bufs)
  if r.info_ < 0 then
    raise Failure.Error
  return r.info_

/-- The query invocation of `gesdd`. -/
def gesddQuery {D : Type} (cd : JobCodes) (t : Elem) (jobz : Job)
    (m n lda ldu ldvt : Int) (bufs : D) : GesddCall D :=
  { jobz_ := cd.job2char jobz, m_ := toBlasInt m, n_ := toBlasInt n,
    lda_ := toBlasInt lda, ldu_ := toBlasInt ldu, ldvt_ := toBlasInt ldvt,
    work := 1, lwork_ := -1, rwork := if t.isComplex then some 1 else none,
    iwork := 1, bufs := bufs }

/-- The length of `rwork` the complex overloads of `gesdd` settle on when the
query left `rwork0` in the first slot of `rwork`. -/
def gesddLrwork (jobz : Job) (m n : Int) (rwork0 : ℚ) : Int :=
  if realToBlasInt rwork0 = 0 then lrworkFallback jobz m n
  else realToBlasInt rwork0

/-- The real invocation of `gesdd`, after a query that left `q`. -/
def gesddReal {D : Type} (cd : JobCodes) (t : Elem) (jobz : Job)
    (m n lda ldu ldvt : Int) (q : GesddOut D) : GesddCall D :=
  { jobz_ := cd.job2char jobz, m_ := toBlasInt m, n_ := toBlasInt n,
    lda_ := toBlasInt lda, ldu_ := toBlasInt ldu, ldvt_ := toBlasInt ldvt,
    work := slotLength q.work0, lwork_ := slotLength q.work0,
    rwork := if t.isComplex then some (gesddLrwork jobz m n q.rwork0) else none,
    iwork := wrap64 (8 * min m n), bufs := q.bufs }

/-- The overflow checks of `gesdd` all pass. -/
def gesddChecked (m n lda ldu ldvt : Int) : Prop :=
  overflows m = false ∧ overflows n = false ∧ overflows lda = false ∧
  overflows ldu = false ∧ overflows ldvt = false

instance (m n lda ldu ldvt : Int) : Decidable (gesddChecked m n lda ldu ldvt) := by
  unfold gesddChecked; infer_instance

/-! ## langb -/

/-- The enumeration `lapack::Norm`, with the members the documentation of `langb`
names. -/
inductive Norm
  | Max
  | One
  | Inf
  | Fro
deriving DecidableEq, Repr

/-- What the kernel `LAPACK_?langb` is handed. -/
structure LangbCall (D : Type) where
  norm_ : Char
  n_ : Int
  kl_ : Int
  ku_ : Int
  ldab_ : Int
  /-- Length of `work`. -/
  work : Int
  /-- The read-only buffer `AB`. -/
  bufs : D
deriving DecidableEq

/-- The wrapper `langb` of `src/langb.cc` (the four overloads differ in the
element type only); `norm2char` is the encoder of `lapack_util.hh`, and the
kernel returns the norm, a value of type `F`. -/
def langb {D F : Type} (norm2char : Norm → Char) (K : LangbCall D → F)
    (norm : Norm) (n kl ku ldab : Int) : Adapter (LangbCall D) D F := do
  -- check for overflow
  throw_if_ (overflows n)
  throw_if_ (overflows kl)
  throw_if_ (overflows ku)
  throw_if_ (overflows ldab)
  let norm_ := norm2char norm
  let n_ := toBlasInt n
  let kl_ := toBlasInt kl
  let ku_ := toBlasInt ku
  let ldab_ := toBlasInt ldab
  -- from docs
  let lwork : Int := if norm = Norm.Inf then n else 1
  -- allocate workspace
  let work ← vector Buf.work (max 1 lwork)
  let bufs ← getMem
  invoke K
    { norm_ := norm_, n_ := n_, kl_ := kl_, ku_ := ku_, ldab_ := ldab_,
      work := work, bufs := bufs }

/-- The argument record `langb` hands to its kernel. -/
def langbArgs {D : Type} (norm2char : Norm → Char) (norm : Norm)
    (n kl ku ldab : Int) (bufs : D) : LangbCall D :=
  { norm_ := norm2char norm, n_ := toBlasInt n, kl_ := toBlasInt kl,
    ku_ := toBlasInt ku, ldab_ := toBlasInt ldab,
    work := max 1 (if norm = Norm.Inf then n else 1), bufs := bufs }

/-- The behaviour of the kernel that the documentation of `langb` states
("When n = 0, returns zero"), as a property of the kernel `K`. -/
def ReturnsZeroOnEmpty {D F : Type} (zero : F) (K : LangbCall D → F) : Prop :=
  ∀ c : LangbCall D, c.n_ = 0 → K c = zero

/-! ## Option tables

The header `lapack_util.hh` with the translation functions is not part of the
sources at hand.  The tables below follow the spec: every member of an
enumeration has one code character, the LAPACK letter of the option, and a
decoder accepts exactly the codes of the members. -/

/-- Modelled from the spec: the encoder `factored2char` of `lapack_util.hh`. -/
def factored2char : Factored → Char
  | .Factored => 'F'
  | .NotFactored => 'N'
  | .Equilibrate => 'E'

/-- Modelled from the spec: the decoder for `lapack::Factored`, the inverse of
`factored2char`; an unrecognised code yields no member. -/
def char2factored (ch : Char) : Option Factored :=
  if ch = 'F' then some .Factored
  else if ch = 'N' then some .NotFactored
  else if ch = 'E' then some .Equilibrate
  else none

/-- Modelled from the spec: the encoder `op2char` of `lapack_util.hh`. -/
def op2char : Op → Char
  | .NoTrans => 'N'
  | .Trans => 'T'
  | .ConjTrans => 'C'

/-- Modelled from the spec: the decoder for `lapack::Op`, the inverse of
`op2char`; an unrecognised code yields no member. -/
def char2op (ch : Char) : Option Op :=
  if ch = 'N' then some .NoTrans
  else if ch = 'T' then some .Trans
  else if ch = 'C' then some .ConjTrans
  else none

/-- Modelled from the spec: the encoder `uplo2char` of `lapack_util.hh`. -/
def uplo2char : Uplo → Char
  | .Upper => 'U'
  | .Lower => 'L'

/-- Modelled from the spec: the decoder for `lapack::Uplo`, the inverse of
`uplo2char`; an unrecognised code yields no member. -/
def char2uplo (ch : Char) : Option Uplo :=
  if ch = 'U' then some .Upper
  else if ch = 'L' then some .Lower
  else none

/-- Modelled from the spec: the encoder `equed2char` of `lapack_util.hh`. -/
def equed2char : Equed → Char
  | .None => 'N'
  | .Row => 'R'
  | .Col => 'C'
  | .Both => 'B'

/-- Modelled from the spec: the decoder `char2equed` of `lapack_util.hh`, the
inverse of `equed2char`; an unrecognised code yields no member, which the
caller turns into a failure. -/
def char2equed (ch : Char) : Option Equed :=
  if ch = 'N' then some .None
  else if ch = 'R' then some .Row
  else if ch = 'C' then some .Col
  else if ch = 'B' then some .Both
  else none

/-- Modelled from the spec: the encoder `job2char` of `lapack_util.hh`. -/
def job2char : Job → Char
  | .NoVec => 'N'
  | .Vec => 'V'

/-- Modelled from the spec: the decoder for `lapack::Job`, the inverse of
`job2char`; an unrecognised code yields no member. -/
def char2job (ch : Char) : Option Job :=
  if ch = 'N' then some .NoVec
  else if ch = 'V' then some .Vec
  else none

/-- Modelled from the spec: the encoder `norm2char` of `lapack_util.hh`. -/
def norm2char : Norm → Char
  | .Max => 'M'
  | .One => '1'
  | .Inf => 'I'
  | .Fro => 'F'

/-- Modelled from the spec: the decoder for `lapack::Norm`, the inverse of
`norm2char`; an unrecognised code yields no member. -/
def char2norm (ch : Char) : Option Norm :=
  if ch = 'M' then some .Max
  else if ch = '1' then some .One
  else if ch = 'I' then some .Inf
  else if ch = 'F' then some .Fro
  else none

/-- The option table of `gbsvx`, made of the functions above. -/
def utilCodes : Codes where
  factored2char := factored2char
  op2char := op2char
  equed2char := equed2char
  char2equed := char2equed

/-! ## Stub kernels and inputs used to evaluate the wrappers -/

/-- An option table: distinct capital letters for the members. -/
def sampleCodes : Codes where
  factored2char := fun f =>
    match f with
    | .Factored => 'F'
    | .NotFactored => 'N'
    | .Equilibrate => 'E'
  op2char := fun o =>
    match o with
    | .NoTrans => 'N'
    | .Trans => 'T'
    | .ConjTrans => 'C'
  equed2char := fun e =>
    match e with
    | .None => 'N'
    | .Row => 'R'
    | .Col => 'C'
    | .Both => 'B'
  char2equed := fun ch =>
    if ch = 'N' then some .None
    else if ch = 'R' then some .Row
    else if ch = 'C' then some .Col
    else if ch = 'B' then some .Both
    else none

/-- A `gbsvx` kernel that touches nothing and reports `info`. -/
def gbsvxStub (info : Int) : GbsvxCall Unit → GbsvxOut Unit :=
  fun c => { ipiv_ := fun i => c.ipiv_.getD i 0, equed_ := c.equed_,
             info_ := info, bufs := c.bufs }

/-- A `gbsvx` kernel that overwrites every pivot with `7`, sets the
equilibration code to `'B'` and reports `info`. -/
def gbsvxStubWrite (info : Int) : GbsvxCall Unit → GbsvxOut Unit :=
  fun c => { ipiv_ := fun _ => 7, equed_ := 'B', info_ := info, bufs := c.bufs }

/-- Dimensions of a 2 by 2 band system with one right-hand side. -/
def dimsTwo : GbsvxDims :=
  { n := 2, kl := 1, ku := 1, nrhs := 1, ldab := 4, ldafb := 4, ldb := 2,
    ldx := 2 }

/-- The dimensions `dimsTwo` with `kl` replaced by `INT64_MIN`. -/
def dimsMinKl : GbsvxDims :=
  { dimsTwo with kl := -9223372036854775808 }

/-- A caller's memory for `gbsvx` with order 2. -/
def memTwo : GbsvxMem Unit :=
  { ipiv := [2, 1], equed := Equed.None, bufs := () }

/-- A `geqrf` kernel that writes `len` into the first slot of `work` and
reports `info`. -/
def geqrfStub (len : ℚ) (info : Int) : GeqrfCall Unit → GeqrfOut Unit :=
  fun c => { work0 := { re := len, im := 0 }, info_ := info, bufs := c.bufs }

/-- A `heevd` kernel that reports `info` on a query (`lwork_ = -1`) and `0`
otherwise, and writes `4`, `7`, `3` into the three query slots. -/
def heevdStub (info : Int) : HeevdCall Unit → HeevdOut Unit :=
  fun c => { work0 := { re := 4, im := 0 }, rwork0 := 7, iwork0 := 3,
             info_ := if c.lwork_ = -1 then info else 0, bufs := c.bufs }

/-- An option table for `job2char` and `uplo2char`. -/
def sampleJobCodes : JobCodes where
  job2char := fun j =>
    match j with
    | .NoVec => 'N'
    | .Vec => 'V'
  uplo2char := fun u =>
    match u with
    | .Upper => 'U'
    | .Lower => 'L'

/-- A `geqrt3` kernel that touches nothing and reports `info`. -/
def geqrt3Stub (info : Int) : Geqrt3Call Unit → Geqrt3Out Unit :=
  fun c => { info_ := info, bufs := c.bufs }

/-- An option table for the three job options of `ggsvd3`, over `Bool`
(compute the matrix or do not). -/
def sampleGgsvdCodes : GgsvdCodes Bool Bool Bool where
  jobu2char := fun b => if b then 'U' else 'N'
  jobv2char := fun b => if b then 'V' else 'N'
  jobq2char := fun b => if b then 'Q' else 'N'

/-- A `ggsvd3` kernel that leaves `k` and `l` as it found them, asks for `len`
workspace elements and reports `0`. -/
def ggsvd3Stub (len : ℚ) : Ggsvd3Call Unit → Ggsvd3Out Unit :=
  fun c => { k_ := c.k_, l_ := c.l_, work0 := { re := len, im := 0 },
             info_ := 0, bufs := c.bufs }

/-- Dimensions of a `ggsvd3` problem with `m = 4`, `n = 3`, `p = 2`. -/
def dimsGgsvd : Ggsvd3Dims :=
  { m := 4, n := 3, p := 2, lda := 4, ldb := 2, ldu := 4, ldv := 2, ldq := 3 }

/-- A `hecon_3` kernel that overwrites the pivot temporary with `7`, sets
`rcond` to `5` and reports `info`. -/
def hecon3Stub (info : Int) : Hecon3Call Unit Int → Hecon3Out Int :=
  fun _ => { ipiv_ := fun _ => 7, rcond := 5, info_ := info }

/-- A `gesdd` kernel that asks for `len` elements of `work`, leaves `rlen` in
the first slot of `rwork` and reports `0`. -/
def gesddStub (len rlen : ℚ) : GesddCall Unit → GesddOut Unit :=
  fun c => { work0 := { re := len, im := 0 }, rwork0 := rlen, info_ := 0,
             bufs := c.bufs }

/-- A `langb` kernel whose value is the order it was handed: zero on an empty
matrix. -/
def langbStub : LangbCall Unit → Int :=
  fun c => c.n_

/-- A `langb` kernel that returns `1` whatever it is handed. -/
def langbStubOne : LangbCall Unit → Int :=
  fun _ => 1

/-- A `gbsvx` kernel that leaves the pivots alone, sets the equilibration code
to `code` and reports `info`. -/
def gbsvxStubCode (code : Char) (info : Int) : GbsvxCall Unit → GbsvxOut Unit :=
  fun c => { ipiv_ := fun i => c.ipiv_.getD i 0, equed_ := code, info_ := info,
             bufs := c.bufs }

/-- A `heevd` kernel that writes `w`, `r`, `i` into the three query slots and
reports `0`. -/
def heevdStubSlots (w r : ℚ) (i : Int) : HeevdCall Unit → HeevdOut Unit :=
  fun c => { work0 := { re := w, im := 0 }, rwork0 := r, iwork0 := i,
             info_ := 0, bufs := c.bufs }

/-- A caller's memory for `gbsvx` whose two pivots do not fit 32 bits. -/
def memWide : GbsvxMem Unit :=
  { ipiv := [4294967297, -2147483649], equed := Equed.None, bufs := () }

/-- A `ggsvd3` kernel that sets `k` to `2` and `l` to `1`, asks for `len`
workspace elements, and reports `qinfo` on a query (`lwork_ = -1`) and `info`
otherwise. -/
def ggsvd3StubKL (len : ℚ) (qinfo info : Int) :
    Ggsvd3Call Unit → Ggsvd3Out Unit :=
  fun c => { k_ := 2, l_ := 1, work0 := { re := len, im := 0 },
             info_ := if c.lwork_ = -1 then qinfo else info, bufs := c.bufs }

/-! ## The adapter steps, one equation each -/

namespace Adapter

variable {C M α β : Type}

theorem bind_eq (m : Adapter C M α) (f : α → Adapter C M β) :
    (m >>= f) = seq m f := rfl

theorem pure_eq (a : α) : (pure a : Adapter C M α) = ret a := rfl

theorem ret_apply (a : α) (s : Trace C M) : ret a s = (.ok a, s) := rfl

theorem raise_apply (e : Failure) (s : Trace C M) :
    (raise e : Adapter C M α) s = (.error e, s) := rfl

theorem seq_ret (a : α) (f : α → Adapter C M β) (s : Trace C M) :
    seq (ret a) f s = f a s := rfl

theorem seq_raise (e : Failure) (f : α → Adapter C M β) (s : Trace C M) :
    seq (raise e) f s = (.error e, s) := rfl

theorem seq_throw_if (c : Bool) (f : Unit → Adapter C M β) (s : Trace C M) :
    seq (throw_if_ c) f s =
      if c = true then (.error Failure.ArgumentOverflow, s) else f () s := by
  cases c <;> rfl

theorem seq_getMem (f : M → Adapter C M β) (s : Trace C M) :
    seq getMem f s = f s.mem s := rfl

theorem seq_modifyMem (g : M → M) (f : Unit → Adapter C M β) (s : Trace C M) :
    seq (modifyMem g) f s = f () { s with mem := g s.mem } := rfl

theorem seq_vector (b : Buf) (len : Int) (f : Int → Adapter C M β)
    (s : Trace C M) :
    seq (vector b len) f s =
      if len < 0 then (.error Failure.length_error, s)
      else f len { s with allocs := s.allocs ++ [(b, len)] } := by
  unfold seq vector; split_ifs <;> rfl

theorem seq_vectorOfRange (ipiv : List Int) (n : Int)
    (f : List Int → Adapter C M β) (s : Trace C M) :
    seq (vectorOfRange ipiv n) f s =
      if n < 0 then (.error Failure.length_error, s)
      else f ((ipiv.take n.toNat).map toBlasInt)
        { s with allocs := s.allocs ++ [(Buf.ipiv_, n)] } := by
  unfold seq vectorOfRange; split_ifs <;> rfl

theorem seq_invoke {R : Type} (K : C → R) (c : C) (f : R → Adapter C M β)
    (s : Trace C M) :
    seq (invoke K c) f s = f (K c) { s with calls := s.calls ++ [c] } := rfl

theorem seq_ite (c : Prop) [Decidable c] (m1 m2 : Adapter C M α)
    (f : α → Adapter C M β) (s : Trace C M) :
    seq (if c then m1 else m2) f s = if c then seq m1 f s else seq m2 f s := by
  split_ifs <;> rfl

theorem ite_run (c : Prop) [Decidable c] (m1 m2 : Adapter C M α)
    (s : Trace C M) :
    (if c then m1 else m2) s = if c then m1 s else m2 s := by
  split_ifs <;> rfl

theorem seq_seq {γ : Type} (m : Adapter C M α) (f : α → Adapter C M β)
    (g : β → Adapter C M γ) (s : Trace C M) :
    seq (seq m f) g s = seq m (fun a => seq (f a) g) s := by
  unfold seq; rcases m s with ⟨r, s1⟩; cases r <;> rfl

end Adapter

/-! ## Narrowing and the overflow check -/

theorem toBlasInt_eq_self {v : Int} (h : isBlasInt v) : toBlasInt v = v := by
  unfold isBlasInt at h
  unfold toBlasInt
  omega

theorem isBlasInt_toBlasInt (v : Int) : isBlasInt (toBlasInt v) := by
  unfold isBlasInt toBlasInt
  omega

theorem overflows_eq_false_iff {v : Int} (h : isInt64 v) :
    overflows v = false ↔
      v = -9223372036854775808 ∨ (-2147483647 ≤ v ∧ v ≤ 2147483647) := by
  unfold isInt64 at h
  unfold overflows abs64 wrap64 blas_int_max
  rw [decide_eq_false_iff_not]
  split <;> omega

theorem overflows_of_outside {v : Int} (h : isInt64 v)
    (hmin : v ≠ -9223372036854775808)
    (hv : v < -blas_int_max ∨ blas_int_max < v) : overflows v = true := by
  rcases hb : overflows v with _ | _
  · unfold blas_int_max at hv
    rcases (overflows_eq_false_iff h).mp hb with h1 | h1
    · exact absurd h1 hmin
    · omega
  · rfl

theorem overflows_of_not_isBlasInt {v : Int} (h : isInt64 v)
    (hmin : v ≠ -9223372036854775808) (hv : ¬ isBlasInt v) :
    overflows v = true := by
  rcases hb : overflows v with _ | _
  · rcases (overflows_eq_false_iff h).mp hb with h1 | h1
    · exact absurd h1 hmin
    · exact absurd ⟨by omega, h1.2⟩ hv
  · rfl

theorem not_overflows_of_symmetric {v : Int}
    (h : -2147483647 ≤ v ∧ v ≤ 2147483647) : overflows v = false := by
  unfold overflows abs64 wrap64 blas_int_max
  rw [decide_eq_false_iff_not]
  split <;> omega

/-! ## gbsvx: the run, case by case -/

section gbsvx

variable {D : Type} (cd : Codes) (t : Elem) (K : GbsvxCall D → GbsvxOut D)
  (fact : Factored) (trans : Op) (a : GbsvxDims) (mem : GbsvxMem D)

theorem gbsvx_run_overflow (h : ¬ a.checked) :
    run (gbsvx cd t K fact trans a) mem =
      (.error Failure.ArgumentOverflow, ⟨[], [], mem⟩) := by
  simp only [gbsvx, run, bind_eq, seq_throw_if]
  by_cases h1 : overflows a.n = true
  · rw [if_pos h1]
  rw [if_neg h1]
  by_cases h2 : overflows a.kl = true
  · rw [if_pos h2]
  rw [if_neg h2]
  by_cases h3 : overflows a.ku = true
  · rw [if_pos h3]
  rw [if_neg h3]
  by_cases h4 : overflows a.nrhs = true
  · rw [if_pos h4]
  rw [if_neg h4]
  by_cases h5 : overflows a.ldab = true
  · rw [if_pos h5]
  rw [if_neg h5]
  by_cases h6 : overflows a.ldafb = true
  · rw [if_pos h6]
  rw [if_neg h6]
  by_cases h7 : overflows a.ldb = true
  · rw [if_pos h7]
  rw [if_neg h7]
  by_cases h8 : overflows a.ldx = true
  · rw [if_pos h8]
  exact absurd ⟨Bool.eq_false_iff.mpr h1, Bool.eq_false_iff.mpr h2,
    Bool.eq_false_iff.mpr h3, Bool.eq_false_iff.mpr h4, Bool.eq_false_iff.mpr h5,
    Bool.eq_false_iff.mpr h6, Bool.eq_false_iff.mpr h7,
    Bool.eq_false_iff.mpr h8⟩ h

theorem gbsvx_run_negative (h : a.checked) (hn : a.n < 0) :
    run (gbsvx cd t K fact trans a) mem =
      (.error Failure.length_error, ⟨[], [], mem⟩) := by
  obtain ⟨h1, h2, h3, h4, h5, h6, h7, h8⟩ := h
  simp only [gbsvx, run, bind_eq, seq_throw_if, seq_getMem, seq_vectorOfRange,
    h1, h2, h3, h4, h5, h6, h7, h8, hn, if_true, if_false, Bool.false_eq_true]

theorem gbsvx_run_error (h : a.checked) (hn : 0 ≤ a.n)
    (hi : (K (gbsvxArgs cd t fact trans a mem)).info_ < 0) :
    run (gbsvx cd t K fact trans a) mem =
      (.error Failure.Error,
        ⟨[gbsvxArgs cd t fact trans a mem], gbsvxAllocs t a.n,
         { mem with bufs := (K (gbsvxArgs cd t fact trans a mem)).bufs }⟩) := by
  obtain ⟨h1, h2, h3, h4, h5, h6, h7, h8⟩ := h
  have hn1 : ¬ a.n < 0 := not_lt.mpr hn
  have hn2 : ¬ (if t.isComplex = true then 2 * a.n else 3 * a.n) < 0 := by
    split <;> omega
  simp only [gbsvxArgs, gbsvxAllocs] at hi ⊢
  simp only [gbsvx, run, bind_eq, pure_eq, seq_throw_if, seq_getMem,
    seq_vectorOfRange, seq_vector, seq_invoke, seq_modifyMem, seq_ite, seq_raise,
    seq_ret, h1, h2, h3, h4, h5, h6, h7, h8, hn1, hn2, if_false, if_true,
    Bool.false_eq_true, List.nil_append, List.cons_append, ite_run, raise_apply,
    ret_apply, hi]

theorem gbsvx_run_badcode (h : a.checked) (hn : 0 ≤ a.n)
    (hi : ¬ (K (gbsvxArgs cd t fact trans a mem)).info_ < 0)
    (hc : cd.char2equed (K (gbsvxArgs cd t fact trans a mem)).equed_ = none) :
    run (gbsvx cd t K fact trans a) mem =
      (.error Failure.BadCode,
        ⟨[gbsvxArgs cd t fact trans a mem], gbsvxAllocs t a.n,
         { mem with bufs := (K (gbsvxArgs cd t fact trans a mem)).bufs }⟩) := by
  obtain ⟨h1, h2, h3, h4, h5, h6, h7, h8⟩ := h
  have hn1 : ¬ a.n < 0 := not_lt.mpr hn
  have hn2 : ¬ (if t.isComplex = true then 2 * a.n else 3 * a.n) < 0 := by
    split <;> omega
  simp only [gbsvxArgs, gbsvxAllocs] at hi hc ⊢
  simp only [gbsvx, run, bind_eq, pure_eq, seq_throw_if, seq_getMem,
    seq_vectorOfRange, seq_vector, seq_invoke, seq_modifyMem, seq_ite, seq_raise,
    seq_ret, h1, h2, h3, h4, h5, h6, h7, h8, hn1, hn2, if_false, if_true,
    Bool.false_eq_true, List.nil_append, List.cons_append, ite_run, raise_apply,
    ret_apply, hi, hc]

theorem gbsvx_run_ok (h : a.checked) (hn : 0 ≤ a.n)
    (hi : ¬ (K (gbsvxArgs cd t fact trans a mem)).info_ < 0) (e : Equed)
    (hc : cd.char2equed (K (gbsvxArgs cd t fact trans a mem)).equed_ = some e) :
    run (gbsvx cd t K fact trans a) mem =
      (.ok (K (gbsvxArgs cd t fact trans a mem)).info_,
        ⟨[gbsvxArgs cd t fact trans a mem], gbsvxAllocs t a.n,
         { ipiv := copyInto
             ((List.range (gbsvxArgs cd t fact trans a mem).ipiv_.length).map
               (K (gbsvxArgs cd t fact trans a mem)).ipiv_) mem.ipiv,
           equed := e,
           bufs := (K (gbsvxArgs cd t fact trans a mem)).bufs }⟩) := by
  obtain ⟨h1, h2, h3, h4, h5, h6, h7, h8⟩ := h
  have hn1 : ¬ a.n < 0 := not_lt.mpr hn
  have hn2 : ¬ (if t.isComplex = true then 2 * a.n else 3 * a.n) < 0 := by
    split <;> omega
  simp only [gbsvxArgs, gbsvxAllocs] at hi hc ⊢
  simp only [gbsvx, run, bind_eq, pure_eq, seq_throw_if, seq_getMem,
    seq_vectorOfRange, seq_vector, seq_invoke, seq_modifyMem, seq_ite, seq_raise,
    seq_ret, h1, h2, h3, h4, h5, h6, h7, h8, hn1, hn2, if_false, if_true,
    Bool.false_eq_true, List.nil_append, List.cons_append, ite_run, raise_apply,
    ret_apply, hi, hc]

/-- The five ways a call of `gbsvx` can go. -/
theorem gbsvx_run_cases :
    (¬ a.checked ∧ run (gbsvx cd t K fact trans a) mem =
        (.error Failure.ArgumentOverflow, ⟨[], [], mem⟩)) ∨
    (a.checked ∧ a.n < 0 ∧ run (gbsvx cd t K fact trans a) mem =
        (.error Failure.length_error, ⟨[], [], mem⟩)) ∨
    (a.checked ∧ 0 ≤ a.n ∧ (K (gbsvxArgs cd t fact trans a mem)).info_ < 0 ∧
      run (gbsvx cd t K fact trans a) mem =
        (.error Failure.Error,
          ⟨[gbsvxArgs cd t fact trans a mem], gbsvxAllocs t a.n,
           { mem with bufs := (K (gbsvxArgs cd t fact trans a mem)).bufs }⟩)) ∨
    (a.checked ∧ 0 ≤ a.n ∧ ¬ (K (gbsvxArgs cd t fact trans a mem)).info_ < 0 ∧
      cd.char2equed (K (gbsvxArgs cd t fact trans a mem)).equed_ = none ∧
      run (gbsvx cd t K fact trans a) mem =
        (.error Failure.BadCode,
          ⟨[gbsvxArgs cd t fact trans a mem], gbsvxAllocs t a.n,
           { mem with bufs := (K (gbsvxArgs cd t fact trans a mem)).bufs }⟩)) ∨
    (a.checked ∧ 0 ≤ a.n ∧ ¬ (K (gbsvxArgs cd t fact trans a mem)).info_ < 0 ∧
      ∃ e, cd.char2equed (K (gbsvxArgs cd t fact trans a mem)).equed_ = some e ∧
      run (gbsvx cd t K fact trans a) mem =
        (.ok (K (gbsvxArgs cd t fact trans a mem)).info_,
          ⟨[gbsvxArgs cd t fact trans a mem], gbsvxAllocs t a.n,
           { ipiv := copyInto
               ((List.range (gbsvxArgs cd t fact trans a mem).ipiv_.length).map
                 (K (gbsvxArgs cd t fact trans a mem)).ipiv_) mem.ipiv,
             equed := e,
             bufs := (K (gbsvxArgs cd t fact trans a mem)).bufs }⟩)) := by
  by_cases h : a.checked
  · by_cases hn : a.n < 0
    · exact Or.inr (Or.inl ⟨h, hn, gbsvx_run_negative cd t K fact trans a mem h hn⟩)
    · have hn0 : 0 ≤ a.n := not_lt.mp hn
      by_cases hi : (K (gbsvxArgs cd t fact trans a mem)).info_ < 0
      · exact Or.inr (Or.inr (Or.inl
          ⟨h, hn0, hi, gbsvx_run_error cd t K fact trans a mem h hn0 hi⟩))
      · cases hc : cd.char2equed (K (gbsvxArgs cd t fact trans a mem)).equed_ with
        | none =>
          exact Or.inr (Or.inr (Or.inr (Or.inl
            ⟨h, hn0, hi, rfl, gbsvx_run_badcode cd t K fact trans a mem h hn0 hi hc⟩)))
        | some e =>
          exact Or.inr (Or.inr (Or.inr (Or.inr
            ⟨h, hn0, hi, e, rfl,
              gbsvx_run_ok cd t K fact trans a mem h hn0 hi e hc⟩)))
  · exact Or.inl ⟨h, gbsvx_run_overflow cd t K fact trans a mem h⟩

/-- Every kernel invocation of `gbsvx` is the one on `gbsvxArgs`, and it is
made only after the checks have passed with a non-negative order. -/
theorem gbsvx_mem_calls (c : GbsvxCall D)
    (hc : c ∈ (run (gbsvx cd t K fact trans a) mem).2.calls) :
    a.checked ∧ 0 ≤ a.n ∧ c = gbsvxArgs cd t fact trans a mem := by
  rcases gbsvx_run_cases cd t K fact trans a mem with
    ⟨_, h⟩ | ⟨_, _, h⟩ | ⟨h1, h2, _, h⟩ | ⟨h1, h2, _, _, h⟩ | ⟨h1, h2, _, e, _, h⟩
  · rw [h] at hc; exact absurd hc (List.not_mem_nil c)
  · rw [h] at hc; exact absurd hc (List.not_mem_nil c)
  · rw [h] at hc; exact ⟨h1, h2, List.mem_singleton.mp hc⟩
  · rw [h] at hc; exact ⟨h1, h2, List.mem_singleton.mp hc⟩
  · rw [h] at hc; exact ⟨h1, h2, List.mem_singleton.mp hc⟩

end gbsvx

/-! ## gbsvx: the overflow check (C1) -/

/-- Whenever one of the eight integer arguments of `gbsvx` is an `int64_t`
outside the `blas_int` range, other than `INT64_MIN`, the call raises the
overflow failure with no kernel invocation, no vector constructed and the
caller's memory untouched. -/
theorem gbsvx_out_of_range_raises {D : Type} (cd : Codes) (t : Elem)
    (K : GbsvxCall D → GbsvxOut D) (fact : Factored) (trans : Op)
    (a : GbsvxDims) (mem : GbsvxMem D) (v : Int)
    (hv : v ∈ [a.n, a.kl, a.ku, a.nrhs, a.ldab, a.ldafb, a.ldb, a.ldx])
    (h64 : isInt64 v) (hmin : v ≠ -9223372036854775808) (hout : ¬ isBlasInt v) :
    run (gbsvx cd t K fact trans a) mem =
      (.error Failure.ArgumentOverflow, ⟨[], [], mem⟩) := by
  apply gbsvx_run_overflow
  have ho : overflows v = true := overflows_of_not_isBlasInt h64 hmin hout
  rintro ⟨h1, h2, h3, h4, h5, h6, h7, h8⟩
  simp only [List.mem_cons, List.mem_singleton, List.not_mem_nil, or_false] at hv
  rcases hv with rfl | rfl | rfl | rfl | rfl | rfl | rfl | rfl <;> simp_all

/-- C1, at the failing input: `kl = INT64_MIN` is an `int64_t` outside the
`blas_int` range, yet `std::abs(kl)` is `INT64_MIN` again, the check passes, and
the kernel is invoked once with `kl_ = 0` on fully built workspaces; the call
returns normally. -/
theorem gbsvx_int64_min_reaches_kernel :
    isInt64 dimsMinKl.kl ∧ ¬ isBlasInt dimsMinKl.kl ∧
    (run (gbsvx sampleCodes Elem.s (gbsvxStub 0) Factored.NotFactored Op.NoTrans
      dimsMinKl) memTwo).1 = .ok 0 ∧
    (run (gbsvx sampleCodes Elem.s (gbsvxStub 0) Factored.NotFactored Op.NoTrans
      dimsMinKl) memTwo).2.calls.map (fun c => c.kl_) = [0] ∧
    (run (gbsvx sampleCodes Elem.s (gbsvxStub 0) Factored.NotFactored Op.NoTrans
      dimsMinKl) memTwo).2.allocs =
      [(Buf.ipiv_, 2), (Buf.work, 6), (Buf.iwork, 2)] := by
  decide

/-! ## gbsvx: status translation (C2, C10) -/

/-- C2: in every call of `gbsvx` in which the kernel is invoked (so the
overflow checks have passed) and leaves a code that `char2equed` decodes, the
call raises if and only if the kernel's status is negative; otherwise it
returns exactly the kernel's status; every value returned is non-negative. -/
theorem gbsvx_status_translation {D : Type} (cd : Codes) (t : Elem)
    (K : GbsvxCall D → GbsvxOut D) (fact : Factored) (trans : Op)
    (a : GbsvxDims) (mem : GbsvxMem D) (c : GbsvxCall D)
    (hcall : c ∈ (run (gbsvx cd t K fact trans a) mem).2.calls)
    (hvalid : (cd.char2equed (K c).equed_).isSome = true) :
    ((∃ e, (run (gbsvx cd t K fact trans a) mem).1 = .error e) ↔
        (K c).info_ < 0) ∧
    (0 ≤ (K c).info_ →
        (run (gbsvx cd t K fact trans a) mem).1 = .ok (K c).info_) ∧
    (∀ v, (run (gbsvx cd t K fact trans a) mem).1 = .ok v →
        0 ≤ v ∧ v = (K c).info_) := by
  obtain ⟨hchk, hn, rfl⟩ := gbsvx_mem_calls cd t K fact trans a mem c hcall
  by_cases hi : (K (gbsvxArgs cd t fact trans a mem)).info_ < 0
  · rw [gbsvx_run_error cd t K fact trans a mem hchk hn hi]
    refine ⟨⟨fun _ => hi, fun _ => ⟨_, rfl⟩⟩, fun h0 => absurd hi (not_lt.mpr h0), ?_⟩
    intro v hv
    cases hv
  · obtain ⟨e, he⟩ := Option.isSome_iff_exists.mp hvalid
    rw [gbsvx_run_ok cd t K fact trans a mem hchk hn hi e he]
    refine ⟨⟨?_, fun h => absurd h hi⟩, fun _ => rfl, ?_⟩
    · rintro ⟨e1, h1⟩
      cases h1
    · intro v hv
      cases hv
      exact ⟨not_lt.mp hi, rfl⟩

/-- C2 at a concrete call: a kernel status of `3 = n + 1` is returned, not
raised. -/
theorem gbsvx_status_translation_witness :
    (run (gbsvx sampleCodes Elem.s (gbsvxStub 3) Factored.NotFactored Op.NoTrans
      dimsTwo) memTwo).1 = .ok 3 :=
  (gbsvx_status_translation sampleCodes Elem.s (gbsvxStub 3) Factored.NotFactored
    Op.NoTrans dimsTwo memTwo
    (gbsvxArgs sampleCodes Elem.s Factored.NotFactored Op.NoTrans dimsTwo memTwo)
    (by decide) (by decide)).2.1 (by decide)

/-- C10: when the kernel invoked by `gbsvx` reports a negative status, the call
raises and the caller's `ipiv` and `*equed` hold their entry values, whatever
the kernel left in the pivot temporary and in the equilibration code. -/
theorem gbsvx_negative_status_writes_nothing {D : Type} (cd : Codes) (t : Elem)
    (K : GbsvxCall D → GbsvxOut D) (fact : Factored) (trans : Op)
    (a : GbsvxDims) (mem : GbsvxMem D) (c : GbsvxCall D)
    (hcall : c ∈ (run (gbsvx cd t K fact trans a) mem).2.calls)
    (hneg : (K c).info_ < 0) :
    (run (gbsvx cd t K fact trans a) mem).1 = .error Failure.Error ∧
    (run (gbsvx cd t K fact trans a) mem).2.mem.ipiv = mem.ipiv ∧
    (run (gbsvx cd t K fact trans a) mem).2.mem.equed = mem.equed ∧
    (run (gbsvx cd t K fact trans a) mem).2.calls = [c] := by
  obtain ⟨hchk, hn, rfl⟩ := gbsvx_mem_calls cd t K fact trans a mem c hcall
  rw [gbsvx_run_error cd t K fact trans a mem hchk hn hneg]
  exact ⟨rfl, rfl, rfl, rfl⟩

/-- C10 at a concrete call: the kernel overwrites the pivot temporary and the
code and reports `-3`; the caller's `[2, 1]` and `Equed.None` survive. -/
theorem gbsvx_negative_status_writes_nothing_witness :
    (run (gbsvx sampleCodes Elem.z (gbsvxStubWrite (-3)) Factored.Equilibrate
      Op.Trans dimsTwo) memTwo).1 = .error Failure.Error ∧
    (run (gbsvx sampleCodes Elem.z (gbsvxStubWrite (-3)) Factored.Equilibrate
      Op.Trans dimsTwo) memTwo).2.mem.ipiv = [2, 1] ∧
    (run (gbsvx sampleCodes Elem.z (gbsvxStubWrite (-3)) Factored.Equilibrate
      Op.Trans dimsTwo) memTwo).2.mem.equed = Equed.None ∧
    (run (gbsvx sampleCodes Elem.z (gbsvxStubWrite (-3)) Factored.Equilibrate
      Op.Trans dimsTwo) memTwo).2.calls =
      [gbsvxArgs sampleCodes Elem.z Factored.Equilibrate Op.Trans dimsTwo memTwo] :=
  gbsvx_negative_status_writes_nothing sampleCodes Elem.z (gbsvxStubWrite (-3))
    Factored.Equilibrate Op.Trans dimsTwo memTwo
    (gbsvxArgs sampleCodes Elem.z Factored.Equilibrate Op.Trans dimsTwo memTwo)
    (by decide) (by decide)

/-! ## gbsvx: the pivot array (C7, C8) -/

theorem map_range_eq_self (l : List Int) (f : Nat → Int)
    (h : ∀ (i : Nat) (hi : i < l.length), f i = l[i]) :
    (List.range l.length).map f = l := by
  apply List.ext_getElem
  · simp
  · intro i h1 h2
    simp only [List.getElem_map, List.getElem_range]
    exact h i h2

theorem copyInto_self (l : List Int) : copyInto l l = l := by
  simp [copyInto]

theorem map_toBlasInt_eq_self (l : List Int) (h : ∀ x ∈ l, isBlasInt x) :
    l.map toBlasInt = l := by
  induction l with
  | nil => rfl
  | cons x xs ih =>
    rw [List.map_cons, toBlasInt_eq_self (h x (List.mem_cons_self x xs)),
      ih (fun y hy => h y (List.mem_cons_of_mem x hy))]

/-- C7: for an order `0 ≤ n ≤ 2^31 - 1` and a caller pivot array of length `n`
with entries between `1` and `n`, if the kernel invoked by `gbsvx` returns a
status `≥ 0` and a decodable equilibration code and leaves every element of the
pivot temporary as it found it, the call returns normally and the caller's
`ipiv` after the call is its value before the call. -/
theorem gbsvx_pivot_round_trip {D : Type} (cd : Codes) (t : Elem)
    (K : GbsvxCall D → GbsvxOut D) (fact : Factored) (trans : Op)
    (a : GbsvxDims) (mem : GbsvxMem D)
    (hn0 : 0 ≤ a.n) (hn1 : a.n ≤ blas_int_max)
    (hlen : (mem.ipiv.length : Int) = a.n)
    (hpiv : ∀ x ∈ mem.ipiv, 1 ≤ x ∧ x ≤ a.n)
    (c : GbsvxCall D)
    (hcall : c ∈ (run (gbsvx cd t K fact trans a) mem).2.calls)
    (hinfo : 0 ≤ (K c).info_)
    (hvalid : (cd.char2equed (K c).equed_).isSome = true)
    (hkeep : ∀ (i : Nat) (hi : i < c.ipiv_.length), (K c).ipiv_ i = c.ipiv_[i]) :
    (run (gbsvx cd t K fact trans a) mem).1 = .ok (K c).info_ ∧
    (run (gbsvx cd t K fact trans a) mem).2.mem.ipiv = mem.ipiv := by
  obtain ⟨hchk, hn, rfl⟩ := gbsvx_mem_calls cd t K fact trans a mem c hcall
  obtain ⟨e, he⟩ := Option.isSome_iff_exists.mp hvalid
  rw [gbsvx_run_ok cd t K fact trans a mem hchk hn (not_lt.mpr hinfo) e he]
  refine ⟨rfl, ?_⟩
  have htemp : (gbsvxArgs cd t fact trans a mem).ipiv_ = mem.ipiv := by
    show (mem.ipiv.take a.n.toNat).map toBlasInt = mem.ipiv
    rw [List.take_of_length_le (by omega)]
    apply map_toBlasInt_eq_self
    intro x hx
    have h1 := hpiv x hx
    unfold blas_int_max at hn1
    unfold isBlasInt
    omega
  show copyInto ((List.range (gbsvxArgs cd t fact trans a mem).ipiv_.length).map
    (K (gbsvxArgs cd t fact trans a mem)).ipiv_) mem.ipiv = mem.ipiv
  rw [map_range_eq_self _ _ hkeep, htemp, copyInto_self]

/-- C7 at a concrete call: the pivots `[2, 1]` come back as `[2, 1]`. -/
theorem gbsvx_pivot_round_trip_witness :
    (run (gbsvx sampleCodes Elem.d (gbsvxStub 0) Factored.NotFactored Op.NoTrans
      dimsTwo) memTwo).1 = .ok 0 ∧
    (run (gbsvx sampleCodes Elem.d (gbsvxStub 0) Factored.NotFactored Op.NoTrans
      dimsTwo) memTwo).2.mem.ipiv = [2, 1] :=
  gbsvx_pivot_round_trip sampleCodes Elem.d (gbsvxStub 0) Factored.NotFactored
    Op.NoTrans dimsTwo memTwo (by decide) (by decide) (by decide) (by decide)
    (gbsvxArgs sampleCodes Elem.d Factored.NotFactored Op.NoTrans dimsTwo memTwo)
    (by decide) (by decide) (by decide) (by decide)

/-- C8: in every call of `gbsvx` that returns normally, on a caller array of at
least `n` elements, the kernel was invoked exactly once and, for every
`0 ≤ i < n`, the caller's `ipiv[i]` after the call is the value the kernel left
at position `i` of the pivot temporary. -/
theorem gbsvx_pivot_widening {D : Type} (cd : Codes) (t : Elem)
    (K : GbsvxCall D → GbsvxOut D) (fact : Factored) (trans : Op)
    (a : GbsvxDims) (mem : GbsvxMem D) (v : Int)
    (hret : (run (gbsvx cd t K fact trans a) mem).1 = .ok v)
    (hlen : a.n ≤ (mem.ipiv.length : Int)) :
    ∃ c, (run (gbsvx cd t K fact trans a) mem).2.calls = [c] ∧
      c.ipiv_.length = a.n.toNat ∧
      ∀ i : Nat, (i : Int) < a.n →
        (run (gbsvx cd t K fact trans a) mem).2.mem.ipiv[i]? =
          some ((K c).ipiv_ i) := by
  rcases gbsvx_run_cases cd t K fact trans a mem with
    ⟨_, h⟩ | ⟨_, _, h⟩ | ⟨_, _, _, h⟩ | ⟨_, _, _, _, h⟩ | ⟨_, hn, _, e, _, h⟩
  · rw [h] at hret; cases hret
  · rw [h] at hret; cases hret
  · rw [h] at hret; cases hret
  · rw [h] at hret; cases hret
  · rw [h]
    have hl : (gbsvxArgs cd t fact trans a mem).ipiv_.length = a.n.toNat := by
      show ((mem.ipiv.take a.n.toNat).map toBlasInt).length = a.n.toNat
      rw [List.length_map, List.length_take]
      omega
    refine ⟨_, rfl, hl, ?_⟩
    intro i hi
    show (copyInto ((List.range (gbsvxArgs cd t fact trans a mem).ipiv_.length).map
      (K (gbsvxArgs cd t fact trans a mem)).ipiv_) mem.ipiv)[i]? = _
    have hi1 : i < a.n.toNat := by omega
    unfold copyInto
    rw [hl, List.getElem?_append_left (by simpa using hi1)]
    simp [List.getElem?_range, hi1]

/-- C8 at a concrete call: the kernel writes `7` at both positions and the
caller reads `[7, 7]`. -/
theorem gbsvx_pivot_widening_witness :
    ∃ c, (run (gbsvx sampleCodes Elem.c (gbsvxStubWrite 1) Factored.Factored
        Op.ConjTrans dimsTwo) memTwo).2.calls = [c] ∧
      c.ipiv_.length = dimsTwo.n.toNat ∧
      ∀ i : Nat, (i : Int) < dimsTwo.n →
        (run (gbsvx sampleCodes Elem.c (gbsvxStubWrite 1) Factored.Factored
          Op.ConjTrans dimsTwo) memTwo).2.mem.ipiv[i]? =
          some ((gbsvxStubWrite 1 c).ipiv_ i) :=
  gbsvx_pivot_widening sampleCodes Elem.c (gbsvxStubWrite 1) Factored.Factored
    Op.ConjTrans dimsTwo memTwo 1 (by decide) (by decide)

/-! ## geqrf: the two-phase workspace protocol (C3) -/

section geqrf

variable {D : Type} (K : GeqrfCall D → GeqrfOut D) (m n lda : Int) (bufs : D)

theorem geqrf_run_overflow
    (h : ¬ (overflows m = false ∧ overflows n = false ∧ overflows lda = false)) :
    run (geqrf K m n lda) bufs =
      (.error Failure.ArgumentOverflow, ⟨[], [], bufs⟩) := by
  simp only [geqrf, run, bind_eq, seq_throw_if]
  by_cases h1 : overflows m = true
  · rw [if_pos h1]
  rw [if_neg h1]
  by_cases h2 : overflows n = true
  · rw [if_pos h2]
  rw [if_neg h2]
  by_cases h3 : overflows lda = true
  · rw [if_pos h3]
  exact absurd ⟨Bool.eq_false_iff.mpr h1, Bool.eq_false_iff.mpr h2,
    Bool.eq_false_iff.mpr h3⟩ h

theorem geqrf_run_query_error
    (h : overflows m = false ∧ overflows n = false ∧ overflows lda = false)
    (hq : (K (geqrfQuery m n lda bufs)).info_ < 0) :
    run (geqrf K m n lda) bufs =
      (.error Failure.Error,
        ⟨[geqrfQuery m n lda bufs], [], (K (geqrfQuery m n lda bufs)).bufs⟩) := by
  obtain ⟨h1, h2, h3⟩ := h
  simp only [geqrfQuery] at hq ⊢
  simp only [geqrf, run, bind_eq, pure_eq, seq_throw_if, seq_getMem, seq_vector,
    seq_invoke, seq_modifyMem, seq_ite, seq_raise, seq_ret, h1, h2, h3, if_false,
    if_true, Bool.false_eq_true, List.nil_append, List.cons_append, ite_run,
    raise_apply, ret_apply, hq]

theorem geqrf_run_negative_length
    (h : overflows m = false ∧ overflows n = false ∧ overflows lda = false)
    (hq : ¬ (K (geqrfQuery m n lda bufs)).info_ < 0)
    (hl : slotLength (K (geqrfQuery m n lda bufs)).work0 < 0) :
    run (geqrf K m n lda) bufs =
      (.error Failure.length_error,
        ⟨[geqrfQuery m n lda bufs], [], (K (geqrfQuery m n lda bufs)).bufs⟩) := by
  obtain ⟨h1, h2, h3⟩ := h
  simp only [geqrfQuery] at hq hl ⊢
  simp only [geqrf, run, bind_eq, pure_eq, seq_throw_if, seq_getMem, seq_vector,
    seq_invoke, seq_modifyMem, seq_ite, seq_raise, seq_ret, h1, h2, h3, if_false,
    if_true, Bool.false_eq_true, List.nil_append, List.cons_append, ite_run,
    raise_apply, ret_apply, hq, hl]

theorem geqrf_run_two_calls
    (h : overflows m = false ∧ overflows n = false ∧ overflows lda = false)
    (hq : ¬ (K (geqrfQuery m n lda bufs)).info_ < 0)
    (hl : ¬ slotLength (K (geqrfQuery m n lda bufs)).work0 < 0) :
    (run (geqrf K m n lda) bufs).2.calls =
      [geqrfQuery m n lda bufs,
       { m_ := toBlasInt m, n_ := toBlasInt n, lda_ := toBlasInt lda,
         work := slotLength (K (geqrfQuery m n lda bufs)).work0,
         lwork_ := slotLength (K (geqrfQuery m n lda bufs)).work0,
         bufs := (K (geqrfQuery m n lda bufs)).bufs }] ∧
    (run (geqrf K m n lda) bufs).2.allocs =
      [(Buf.work, slotLength (K (geqrfQuery m n lda bufs)).work0)] := by
  obtain ⟨h1, h2, h3⟩ := h
  simp only [geqrfQuery] at hq hl ⊢
  simp only [geqrf, run, bind_eq, pure_eq, seq_throw_if, seq_getMem, seq_vector,
    seq_invoke, seq_modifyMem, seq_ite, seq_raise, seq_ret, h1, h2, h3, if_false,
    if_true, Bool.false_eq_true, List.nil_append, List.cons_append, ite_run,
    raise_apply, ret_apply, hq, hl]
  split <;> exact ⟨rfl, rfl⟩

end geqrf

theorem truncQ_intCast (L : Int) : truncQ (L : ℚ) = L := by
  simp [truncQ]

theorem realToBlasInt_of_isBlasInt {q : ℚ} (h : isBlasInt (truncQ q)) :
    realToBlasInt q = truncQ q := by
  unfold realToBlasInt
  rw [if_pos h]

theorem realToBlasInt_of_bounds {q : ℚ} (h0 : 0 ≤ truncQ q)
    (h1 : truncQ q ≤ blas_int_max) : realToBlasInt q = truncQ q := by
  apply realToBlasInt_of_isBlasInt
  unfold blas_int_max at h1
  unfold isBlasInt
  omega

theorem realToBlasInt_of_not_isBlasInt {q : ℚ} (h : ¬ isBlasInt (truncQ q)) :
    realToBlasInt q = -2147483648 := by
  unfold realToBlasInt
  rw [if_neg h]

/-- A query slot whose integer part is not a `blas_int` converts to `INT_MIN`:
the construction of the workspace raises and the kernel has been invoked once. -/
theorem geqrf_run_slot_out_of_range {D : Type} (K : GeqrfCall D → GeqrfOut D)
    (m n lda : Int) (bufs : D)
    (h : overflows m = false ∧ overflows n = false ∧ overflows lda = false)
    (hq : 0 ≤ (K (geqrfQuery m n lda bufs)).info_)
    (hl : ¬ isBlasInt (truncQ (real (K (geqrfQuery m n lda bufs)).work0))) :
    run (geqrf K m n lda) bufs =
      (.error Failure.length_error,
        ⟨[geqrfQuery m n lda bufs], [], (K (geqrfQuery m n lda bufs)).bufs⟩) := by
  apply geqrf_run_negative_length K m n lda bufs h (not_lt.mpr hq)
  unfold slotLength
  rw [realToBlasInt_of_not_isBlasInt hl]
  decide

/-- C3, as stated, fails: the checks pass and the query returns status `0`, but
the kernel has written `-1` into the query slot; the construction of the
workspace raises and the kernel has been invoked once, not twice. -/
theorem geqrf_negative_slot_single_call :
    (overflows 50 = false ∧ overflows 30 = false ∧ overflows 50 = false) ∧
    0 ≤ (geqrfStub (-1) 0 (geqrfQuery 50 30 50 ())).info_ ∧
    (run (geqrf (geqrfStub (-1) 0) 50 30 50) ()).1 = .error Failure.length_error ∧
    (run (geqrf (geqrfStub (-1) 0) 50 30 50) ()).2.calls.length = 1 := by
  decide

/-- C3, amended: for every call of `geqrf` that passes the overflow checks,
whose query invocation returns a status `≥ 0` and leaves in the first slot a
value whose integer part `L` satisfies `0 ≤ L ≤ 2^31 - 1`, the kernel is
invoked exactly twice: first with `lwork = -1` and a one-element buffer, then
with a workspace of exactly `L` elements and `lwork = L`; both invocations
receive the same narrowed `m`, `n`, `lda`.  When the slot holds an integer, `L`
is that integer. -/
theorem geqrf_two_phase {D : Type} (K : GeqrfCall D → GeqrfOut D)
    (m n lda : Int) (bufs : D)
    (hchk : overflows m = false ∧ overflows n = false ∧ overflows lda = false)
    (hq : 0 ≤ (K (geqrfQuery m n lda bufs)).info_)
    (hl0 : 0 ≤ truncQ (real (K (geqrfQuery m n lda bufs)).work0))
    (hl1 : truncQ (real (K (geqrfQuery m n lda bufs)).work0) ≤ blas_int_max) :
    (∃ c1 c2, (run (geqrf K m n lda) bufs).2.calls = [c1, c2] ∧
      c1.lwork_ = -1 ∧ c1.work = 1 ∧
      c2.work = truncQ (real (K c1).work0) ∧
      c2.lwork_ = truncQ (real (K c1).work0) ∧
      c1.m_ = toBlasInt m ∧ c1.n_ = toBlasInt n ∧ c1.lda_ = toBlasInt lda ∧
      c2.m_ = toBlasInt m ∧ c2.n_ = toBlasInt n ∧ c2.lda_ = toBlasInt lda) ∧
    (run (geqrf K m n lda) bufs).2.allocs =
      [(Buf.work, truncQ (real (K (geqrfQuery m n lda bufs)).work0))] ∧
    (∀ L : Int, real (K (geqrfQuery m n lda bufs)).work0 = (L : ℚ) →
      truncQ (real (K (geqrfQuery m n lda bufs)).work0) = L) := by
  have hs : slotLength (K (geqrfQuery m n lda bufs)).work0 =
      truncQ (real (K (geqrfQuery m n lda bufs)).work0) :=
    realToBlasInt_of_bounds hl0 hl1
  obtain ⟨hc, ha⟩ := geqrf_run_two_calls K m n lda bufs hchk (not_lt.mpr hq)
    (not_lt.mpr (hs ▸ hl0))
  rw [hs] at hc ha
  refine ⟨⟨_, _, hc, rfl, rfl, rfl, rfl, rfl, rfl, rfl, rfl, rfl, rfl⟩, ha, ?_⟩
  intro L hL
  rw [hL, truncQ_intCast]

/-- C3, amended, at a concrete call: the kernel asks for `1920` elements and
gets a workspace of `1920` elements. -/
theorem geqrf_two_phase_witness :
    (run (geqrf (geqrfStub 1920 0) 50 30 50) ()).2.allocs = [(Buf.work, 1920)] :=
  (geqrf_two_phase (geqrfStub 1920 0) 50 30 50 () (by decide) (by decide)
    (by decide) (by decide)).2.1

/-! ## heevd: a failing query (C4) -/

section heevd

variable {D : Type} (cd : JobCodes) (K : HeevdCall D → HeevdOut D) (jobz : Job)
  (uplo : Uplo) (n lda : Int) (bufs : D)

theorem heevd_run_overflow
    (h : ¬ (overflows n = false ∧ overflows lda = false)) :
    run (heevd cd K jobz uplo n lda) bufs =
      (.error Failure.ArgumentOverflow, ⟨[], [], bufs⟩) := by
  simp only [heevd, run, bind_eq, seq_throw_if]
  by_cases h1 : overflows n = true
  · rw [if_pos h1]
  rw [if_neg h1]
  by_cases h2 : overflows lda = true
  · rw [if_pos h2]
  exact absurd ⟨Bool.eq_false_iff.mpr h1, Bool.eq_false_iff.mpr h2⟩ h

theorem heevd_run_query_error
    (h : overflows n = false ∧ overflows lda = false)
    (hq : (K (heevdQuery cd jobz uplo n lda bufs)).info_ < 0) :
    run (heevd cd K jobz uplo n lda) bufs =
      (.error Failure.Error,
        ⟨[heevdQuery cd jobz uplo n lda bufs], [],
         (K (heevdQuery cd jobz uplo n lda bufs)).bufs⟩) := by
  obtain ⟨h1, h2⟩ := h
  simp only [heevdQuery] at hq ⊢
  simp only [heevd, run, bind_eq, pure_eq, seq_throw_if, seq_getMem, seq_vector,
    seq_invoke, seq_modifyMem, seq_ite, seq_raise, seq_ret, h1, h2, if_false,
    if_true, Bool.false_eq_true, List.nil_append, List.cons_append, ite_run,
    raise_apply, ret_apply, hq]

end heevd

/-- C4: for every call of `heevd` that passes the overflow checks, if the query
invocation (all three length arguments `-1`, three one-element buffers) returns
a negative status, the call raises; the kernel has been invoked exactly once,
with the query arguments, and no workspace has been constructed. -/
theorem heevd_query_failure {D : Type} (cd : JobCodes)
    (K : HeevdCall D → HeevdOut D) (jobz : Job) (uplo : Uplo) (n lda : Int)
    (bufs : D)
    (hchk : overflows n = false ∧ overflows lda = false)
    (hq : (K (heevdQuery cd jobz uplo n lda bufs)).info_ < 0) :
    (run (heevd cd K jobz uplo n lda) bufs).1 = .error Failure.Error ∧
    (run (heevd cd K jobz uplo n lda) bufs).2.calls =
      [heevdQuery cd jobz uplo n lda bufs] ∧
    (heevdQuery cd jobz uplo n lda bufs).lwork_ = -1 ∧
    (heevdQuery cd jobz uplo n lda bufs).lrwork_ = -1 ∧
    (heevdQuery cd jobz uplo n lda bufs).liwork_ = -1 ∧
    (run (heevd cd K jobz uplo n lda) bufs).2.calls.length = 1 ∧
    (run (heevd cd K jobz uplo n lda) bufs).2.allocs = [] := by
  rw [heevd_run_query_error cd K jobz uplo n lda bufs hchk hq]
  exact ⟨rfl, rfl, rfl, rfl, rfl, rfl, rfl⟩

/-- C4 at a concrete call: the query reports `-3`. -/
theorem heevd_query_failure_witness :
    (run (heevd sampleJobCodes (heevdStub (-3)) Job.Vec Uplo.Lower 10 10) ()).1 =
      .error Failure.Error ∧
    (run (heevd sampleJobCodes (heevdStub (-3)) Job.Vec Uplo.Lower 10 10)
      ()).2.calls = [heevdQuery sampleJobCodes Job.Vec Uplo.Lower 10 10 ()] ∧
    (heevdQuery sampleJobCodes Job.Vec Uplo.Lower 10 10 ()).lwork_ = -1 ∧
    (heevdQuery sampleJobCodes Job.Vec Uplo.Lower 10 10 ()).lrwork_ = -1 ∧
    (heevdQuery sampleJobCodes Job.Vec Uplo.Lower 10 10 ()).liwork_ = -1 ∧
    (run (heevd sampleJobCodes (heevdStub (-3)) Job.Vec Uplo.Lower 10 10)
      ()).2.calls.length = 1 ∧
    (run (heevd sampleJobCodes (heevdStub (-3)) Job.Vec Uplo.Lower 10 10)
      ()).2.allocs = [] :=
  heevd_query_failure sampleJobCodes (heevdStub (-3)) Job.Vec Uplo.Lower 10 10 ()
    (by decide) (by decide)

/-! ## geqrt3: narrowing of in-range arguments (C5) -/

section geqrt3

variable {D : Type} (K : Geqrt3Call D → Geqrt3Out D) (m n lda ldt : Int)
  (bufs : D)

theorem geqrt3_run_overflow
    (h : ¬ (overflows m = false ∧ overflows n = false ∧ overflows lda = false ∧
      overflows ldt = false)) :
    run (geqrt3 K m n lda ldt) bufs =
      (.error Failure.ArgumentOverflow, ⟨[], [], bufs⟩) := by
  simp only [geqrt3, run, bind_eq, seq_throw_if]
  by_cases h1 : overflows m = true
  · rw [if_pos h1]
  rw [if_neg h1]
  by_cases h2 : overflows n = true
  · rw [if_pos h2]
  rw [if_neg h2]
  by_cases h3 : overflows lda = true
  · rw [if_pos h3]
  rw [if_neg h3]
  by_cases h4 : overflows ldt = true
  · rw [if_pos h4]
  exact absurd ⟨Bool.eq_false_iff.mpr h1, Bool.eq_false_iff.mpr h2,
    Bool.eq_false_iff.mpr h3, Bool.eq_false_iff.mpr h4⟩ h

theorem geqrt3_run_call
    (h : overflows m = false ∧ overflows n = false ∧ overflows lda = false ∧
      overflows ldt = false) :
    run (geqrt3 K m n lda ldt) bufs =
      (if (K (geqrt3Args m n lda ldt bufs)).info_ < 0 then .error Failure.Error
        else .ok (K (geqrt3Args m n lda ldt bufs)).info_,
       ⟨[geqrt3Args m n lda ldt bufs], [],
        (K (geqrt3Args m n lda ldt bufs)).bufs⟩) := by
  obtain ⟨h1, h2, h3, h4⟩ := h
  simp only [geqrt3Args]
  simp only [geqrt3, run, bind_eq, pure_eq, seq_throw_if, seq_getMem,
    seq_invoke, seq_modifyMem, seq_ite, seq_raise, seq_ret, h1, h2, h3, h4,
    if_false, if_true, Bool.false_eq_true, List.nil_append, List.cons_append,
    ite_run, raise_apply, ret_apply]
  split <;> rfl

end geqrt3

/-- C5, as stated, fails: `m = -2^31` lies within the `blas_int` range
`[-2^31, 2^31 - 1]`, but `std::abs(m) = 2^31` exceeds the maximum, so the call
raises the overflow failure and the kernel is not invoked. -/
theorem geqrt3_int_min_raises :
    isBlasInt (-2147483648) ∧ isBlasInt 1 ∧
    run (geqrt3 (geqrt3Stub 0) (-2147483648) 1 1 1) () =
      (.error Failure.ArgumentOverflow, ⟨[], [], ()⟩) :=
  ⟨by decide, by decide, geqrt3_run_overflow (geqrt3Stub 0) (-2147483648) 1 1 1 ()
    (by decide)⟩

/-- C5, amended: for all `m`, `n`, `lda`, `ldt` within
`[-(2^31 - 1), 2^31 - 1]`, `geqrt3` raises no overflow failure and invokes the
kernel exactly once, with arguments equal to `m`, `n`, `lda`, `ldt`; the
narrowed value `(blas_int) v` is `v` itself. -/
theorem geqrt3_in_range_narrowing {D : Type} (K : Geqrt3Call D → Geqrt3Out D)
    (m n lda ldt : Int) (bufs : D)
    (hm : -2147483647 ≤ m ∧ m ≤ 2147483647)
    (hn : -2147483647 ≤ n ∧ n ≤ 2147483647)
    (hlda : -2147483647 ≤ lda ∧ lda ≤ 2147483647)
    (hldt : -2147483647 ≤ ldt ∧ ldt ≤ 2147483647) :
    (run (geqrt3 K m n lda ldt) bufs).1 ≠ .error Failure.ArgumentOverflow ∧
    (run (geqrt3 K m n lda ldt) bufs).2.calls =
      [{ m_ := m, n_ := n, lda_ := lda, ldt_ := ldt, bufs := bufs }] ∧
    toBlasInt m = m ∧ toBlasInt n = n ∧ toBlasInt lda = lda ∧
    toBlasInt ldt = ldt := by
  have e1 : toBlasInt m = m := toBlasInt_eq_self ⟨by omega, hm.2⟩
  have e2 : toBlasInt n = n := toBlasInt_eq_self ⟨by omega, hn.2⟩
  have e3 : toBlasInt lda = lda := toBlasInt_eq_self ⟨by omega, hlda.2⟩
  have e4 : toBlasInt ldt = ldt := toBlasInt_eq_self ⟨by omega, hldt.2⟩
  rw [geqrt3_run_call K m n lda ldt bufs
    ⟨not_overflows_of_symmetric hm, not_overflows_of_symmetric hn,
     not_overflows_of_symmetric hlda, not_overflows_of_symmetric hldt⟩]
  unfold geqrt3Args
  rw [e1, e2, e3, e4]
  refine ⟨?_, rfl, rfl, rfl, rfl, rfl⟩
  dsimp only
  split <;> simp

/-- C5, amended, at a concrete call: `m = -(2^31 - 1)` reaches the kernel
unchanged. -/
theorem geqrt3_in_range_narrowing_witness :
    (run (geqrt3 (geqrt3Stub 0) (-2147483647) 30 50 30) ()).1 ≠
      .error Failure.ArgumentOverflow ∧
    (run (geqrt3 (geqrt3Stub 0) (-2147483647) 30 50 30) ()).2.calls =
      [{ m_ := -2147483647, n_ := 30, lda_ := 50, ldt_ := 30, bufs := () }] ∧
    toBlasInt (-2147483647) = -2147483647 ∧ toBlasInt 30 = 30 ∧
    toBlasInt 50 = 50 ∧ toBlasInt 30 = 30 :=
  geqrt3_in_range_narrowing (geqrt3Stub 0) (-2147483647) 30 50 30 ()
    (by decide) (by decide) (by decide) (by decide)

/-! ## ggsvd3: which integers are range-checked (C6) -/

section ggsvd3

variable {D JobU JobV JobQ : Type} (cd : GgsvdCodes JobU JobV JobQ) (t : Elem)
  (K : Ggsvd3Call D → Ggsvd3Out D) (jobu : JobU) (jobv : JobV) (jobq : JobQ)
  (a : Ggsvd3Dims) (mem : Ggsvd3Mem D)

theorem ggsvd3_run_overflow (h : ¬ a.checked) :
    run (ggsvd3 cd t K jobu jobv jobq a) mem =
      (.error Failure.ArgumentOverflow, ⟨[], [], mem⟩) := by
  simp only [ggsvd3, run, bind_eq, seq_throw_if]
  by_cases h1 : overflows a.m = true
  · rw [if_pos h1]
  rw [if_neg h1]
  by_cases h2 : overflows a.n = true
  · rw [if_pos h2]
  rw [if_neg h2]
  by_cases h3 : overflows a.p = true
  · rw [if_pos h3]
  rw [if_neg h3]
  by_cases h4 : overflows a.lda = true
  · rw [if_pos h4]
  rw [if_neg h4]
  by_cases h5 : overflows a.ldb = true
  · rw [if_pos h5]
  rw [if_neg h5]
  by_cases h6 : overflows a.ldu = true
  · rw [if_pos h6]
  rw [if_neg h6]
  by_cases h7 : overflows a.ldv = true
  · rw [if_pos h7]
  rw [if_neg h7]
  by_cases h8 : overflows a.ldq = true
  · rw [if_pos h8]
  exact absurd ⟨Bool.eq_false_iff.mpr h1, Bool.eq_false_iff.mpr h2,
    Bool.eq_false_iff.mpr h3, Bool.eq_false_iff.mpr h4, Bool.eq_false_iff.mpr h5,
    Bool.eq_false_iff.mpr h6, Bool.eq_false_iff.mpr h7,
    Bool.eq_false_iff.mpr h8⟩ h

/-- Once its checks have passed, `ggsvd3` invokes the kernel, first of all on
the query arguments. -/
theorem ggsvd3_first_call (h : a.checked) :
    ∃ rest, (run (ggsvd3 cd t K jobu jobv jobq a) mem).2.calls =
      ggsvd3Query cd t jobu jobv jobq a mem :: rest := by
  obtain ⟨h1, h2, h3, h4, h5, h6, h7, h8⟩ := h
  simp only [ggsvd3Query]
  simp only [ggsvd3, run, bind_eq, pure_eq, seq_throw_if, seq_getMem, seq_vector,
    seq_invoke, seq_modifyMem, seq_ite, seq_raise, seq_ret, seq_seq, h1, h2, h3,
    h4, h5, h6, h7, h8, if_false, if_true, Bool.false_eq_true, List.nil_append,
    List.cons_append, ite_run, raise_apply, ret_apply]
  repeat' split
  all_goals exact ⟨_, rfl⟩

/-- Every kernel invocation of `ggsvd3` happens after the checks have passed
and receives the eight by-value integers narrowed by `toBlasInt`. -/
theorem ggsvd3_mem_calls (c : Ggsvd3Call D)
    (hc : c ∈ (run (ggsvd3 cd t K jobu jobv jobq a) mem).2.calls) :
    a.checked ∧ c.m_ = toBlasInt a.m ∧ c.n_ = toBlasInt a.n ∧
    c.p_ = toBlasInt a.p ∧ c.lda_ = toBlasInt a.lda ∧ c.ldb_ = toBlasInt a.ldb ∧
    c.ldu_ = toBlasInt a.ldu ∧ c.ldv_ = toBlasInt a.ldv ∧
    c.ldq_ = toBlasInt a.ldq := by
  by_cases h : a.checked
  · refine ⟨h, ?_⟩
    obtain ⟨h1, h2, h3, h4, h5, h6, h7, h8⟩ := h
    simp only [ggsvd3, run, bind_eq, pure_eq, seq_throw_if, seq_getMem,
      seq_vector, seq_invoke, seq_modifyMem, seq_ite, seq_raise, seq_ret, seq_seq,
      h1, h2, h3, h4, h5, h6, h7, h8, if_false, if_true, Bool.false_eq_true,
      List.nil_append, List.cons_append, ite_run, raise_apply, ret_apply] at hc
    repeat' split at hc
    all_goals
      simp only [List.mem_cons, List.mem_singleton, List.not_mem_nil,
        or_false] at hc
      rcases hc with rfl | rfl <;> exact ⟨rfl, rfl, rfl, rfl, rfl, rfl, rfl, rfl⟩
  · rw [ggsvd3_run_overflow cd t K jobu jobv jobq a mem h] at hc
    exact absurd hc (List.not_mem_nil c)

end ggsvd3

theorem toBlasInt_of_not_overflows {v : Int} (h64 : isInt64 v)
    (hmin : v ≠ -9223372036854775808) (h : overflows v = false) :
    toBlasInt v = v := by
  rcases (overflows_eq_false_iff h64).mp h with h1 | h1
  · exact absurd h1 hmin
  · exact toBlasInt_eq_self ⟨by omega, h1.2⟩

/-- C6, as stated, fails: the entry value `*k = 2^31` exceeds `2^31 - 1`, the
checks pass all the same, the call returns normally, and the kernel is invoked
(twice) with `k_ = -2^31`, the truncation of `*k`. -/
theorem ggsvd3_unchecked_k_reaches_kernel :
    blas_int_max < 2147483648 ∧ isInt64 2147483648 ∧ dimsGgsvd.checked ∧
    (run (ggsvd3 sampleGgsvdCodes Elem.s (ggsvd3Stub 10) true true true dimsGgsvd)
      { k := 2147483648, l := 0, bufs := () }).1 = .ok 0 ∧
    (run (ggsvd3 sampleGgsvdCodes Elem.s (ggsvd3Stub 10) true true true dimsGgsvd)
      { k := 2147483648, l := 0, bufs := () }).2.calls.map (fun c => c.k_) =
      [-2147483648, -2147483648] := by
  decide

/-- C6, amended: the eight integers `ggsvd3` takes by value (`m`, `n`, `p`,
`lda`, `ldb`, `ldu`, `ldv`, `ldq`) are range-checked before the kernel is
invoked: if one of them is an `int64_t` other than `INT64_MIN` below
`-(2^31 - 1)` or above `2^31 - 1`, the call raises the overflow failure with no
kernel invocation; every invocation receives each of them unchanged (for
`int64_t` values other than `INT64_MIN`).  The entry values `*k` and `*l` are
not checked: the query invocation receives their truncation to 32 bits. -/
theorem ggsvd3_value_arguments_checked {D JobU JobV JobQ : Type}
    (cd : GgsvdCodes JobU JobV JobQ) (t : Elem) (K : Ggsvd3Call D → Ggsvd3Out D)
    (jobu : JobU) (jobv : JobV) (jobq : JobQ) (a : Ggsvd3Dims)
    (mem : Ggsvd3Mem D) :
    (∀ v ∈ [a.m, a.n, a.p, a.lda, a.ldb, a.ldu, a.ldv, a.ldq],
      isInt64 v → v ≠ -9223372036854775808 →
      (v < -blas_int_max ∨ blas_int_max < v) →
      run (ggsvd3 cd t K jobu jobv jobq a) mem =
        (.error Failure.ArgumentOverflow, ⟨[], [], mem⟩)) ∧
    (∀ c ∈ (run (ggsvd3 cd t K jobu jobv jobq a) mem).2.calls,
      ∀ v ∈ [(a.m, c.m_), (a.n, c.n_), (a.p, c.p_), (a.lda, c.lda_),
              (a.ldb, c.ldb_), (a.ldu, c.ldu_), (a.ldv, c.ldv_), (a.ldq, c.ldq_)],
        isInt64 v.1 → v.1 ≠ -9223372036854775808 → v.2 = v.1) ∧
    (a.checked →
      ∃ c rest, (run (ggsvd3 cd t K jobu jobv jobq a) mem).2.calls = c :: rest ∧
        c.k_ = toBlasInt mem.k ∧ c.l_ = toBlasInt mem.l ∧ c.lwork_ = -1) := by
  refine ⟨?_, ?_, ?_⟩
  · intro v hv h64 hmin hout
    apply ggsvd3_run_overflow
    have ho : overflows v = true := overflows_of_outside h64 hmin hout
    rintro ⟨h1, h2, h3, h4, h5, h6, h7, h8⟩
    simp only [List.mem_cons, List.mem_singleton, List.not_mem_nil, or_false] at hv
    rcases hv with rfl | rfl | rfl | rfl | rfl | rfl | rfl | rfl <;> simp_all
  · intro c hc v hv h64 hmin
    obtain ⟨⟨h1, h2, h3, h4, h5, h6, h7, h8⟩, e1, e2, e3, e4, e5, e6, e7, e8⟩ :=
      ggsvd3_mem_calls cd t K jobu jobv jobq a mem c hc
    simp only [List.mem_cons, List.mem_singleton, List.not_mem_nil, or_false] at hv
    rcases hv with rfl | rfl | rfl | rfl | rfl | rfl | rfl | rfl
    · exact e1.trans (toBlasInt_of_not_overflows h64 hmin h1)
    · exact e2.trans (toBlasInt_of_not_overflows h64 hmin h2)
    · exact e3.trans (toBlasInt_of_not_overflows h64 hmin h3)
    · exact e4.trans (toBlasInt_of_not_overflows h64 hmin h4)
    · exact e5.trans (toBlasInt_of_not_overflows h64 hmin h5)
    · exact e6.trans (toBlasInt_of_not_overflows h64 hmin h6)
    · exact e7.trans (toBlasInt_of_not_overflows h64 hmin h7)
    · exact e8.trans (toBlasInt_of_not_overflows h64 hmin h8)
  · intro h
    obtain ⟨rest, hr⟩ := ggsvd3_first_call cd t K jobu jobv jobq a mem h
    exact ⟨_, rest, hr, rfl, rfl, rfl⟩

/-- C6, amended, at a concrete call: `n = 3000000000` is rejected before any
kernel invocation. -/
theorem ggsvd3_value_arguments_checked_witness :
    run (ggsvd3 sampleGgsvdCodes Elem.s (ggsvd3Stub 10) true true true
      { dimsGgsvd with n := 3000000000 }) { k := 0, l := 0, bufs := () } =
      (.error Failure.ArgumentOverflow,
        ⟨[], [], { k := 0, l := 0, bufs := () }⟩) :=
  (ggsvd3_value_arguments_checked sampleGgsvdCodes Elem.s (ggsvd3Stub 10) true
    true true { dimsGgsvd with n := 3000000000 }
    { k := 0, l := 0, bufs := () }).1 3000000000 (by decide) (by decide)
    (by decide) (by decide)

/-! ## hecon_3: pivots are an input only (C9) -/

section hecon_3

variable {D F : Type} (cd : JobCodes) (K : Hecon3Call D F → Hecon3Out F)
  (uplo : Uplo) (n lda : Int) (anorm : F) (mem : Hecon3Mem D F)

theorem hecon_3_run_overflow
    (h : ¬ (overflows n = false ∧ overflows lda = false)) :
    run (hecon_3 cd K uplo n lda anorm) mem =
      (.error Failure.ArgumentOverflow, ⟨[], [], mem⟩) := by
  simp only [hecon_3, run, bind_eq, seq_throw_if]
  by_cases h1 : overflows n = true
  · rw [if_pos h1]
  rw [if_neg h1]
  by_cases h2 : overflows lda = true
  · rw [if_pos h2]
  exact absurd ⟨Bool.eq_false_iff.mpr h1, Bool.eq_false_iff.mpr h2⟩ h

theorem hecon_3_run_negative
    (h : overflows n = false ∧ overflows lda = false) (hn : n < 0) :
    run (hecon_3 cd K uplo n lda anorm) mem =
      (.error Failure.length_error, ⟨[], [], mem⟩) := by
  obtain ⟨h1, h2⟩ := h
  simp only [hecon_3, run, bind_eq, seq_throw_if, seq_getMem, seq_vectorOfRange,
    h1, h2, hn, if_true, if_false, Bool.false_eq_true]

theorem hecon_3_run_call
    (h : overflows n = false ∧ overflows lda = false) (hn : 0 ≤ n) :
    run (hecon_3 cd K uplo n lda anorm) mem =
      (if (K (hecon3Args cd uplo n lda anorm mem)).info_ < 0
        then .error Failure.Error
        else .ok (K (hecon3Args cd uplo n lda anorm mem)).info_,
       ⟨[hecon3Args cd uplo n lda anorm mem],
        [(Buf.ipiv_, n), (Buf.work, 2 * n), (Buf.iwork, n)],
        { mem with rcond := (K (hecon3Args cd uplo n lda anorm mem)).rcond }⟩) := by
  obtain ⟨h1, h2⟩ := h
  have hn1 : ¬ n < 0 := not_lt.mpr hn
  have hn2 : ¬ 2 * n < 0 := by omega
  simp only [hecon3Args]
  simp only [hecon_3, run, bind_eq, pure_eq, seq_throw_if, seq_getMem,
    seq_vectorOfRange, seq_vector, seq_invoke, seq_modifyMem, seq_ite, seq_raise,
    seq_ret, h1, h2, hn1, hn2, if_false, if_true, Bool.false_eq_true,
    List.nil_append, List.cons_append, ite_run, raise_apply, ret_apply]
  split <;> rfl

/-- On every exit path of `hecon_3` the caller's `ipiv` is what it was. -/
theorem hecon_3_ipiv_unchanged :
    (run (hecon_3 cd K uplo n lda anorm) mem).2.mem.ipiv = mem.ipiv := by
  by_cases h : overflows n = false ∧ overflows lda = false
  · by_cases hn : n < 0
    · rw [hecon_3_run_negative cd K uplo n lda anorm mem h hn]
    · rw [hecon_3_run_call cd K uplo n lda anorm mem h (not_lt.mp hn)]
  · rw [hecon_3_run_overflow cd K uplo n lda anorm mem h]

end hecon_3

/-- C9: the caller's `ipiv` is unchanged after `hecon_3` on every exit path,
whatever the kernel writes into the temporary.  For `0 ≤ n` within range (and
`lda` within range, and a caller array of at least `n` elements) the kernel is
invoked exactly once, with a pivot array of length `n` whose `i`-th element is
the narrowed `ipiv[i]`; the call raises exactly when the kernel's status is
negative and otherwise returns that status, and `rcond` is what that kernel
invocation left. -/
theorem hecon_3_input_only_pivots {D F : Type} (cd : JobCodes)
    (K : Hecon3Call D F → Hecon3Out F) (uplo : Uplo) (n lda : Int) (anorm : F)
    (mem : Hecon3Mem D F) :
    (run (hecon_3 cd K uplo n lda anorm) mem).2.mem.ipiv = mem.ipiv ∧
    (0 ≤ n → n ≤ blas_int_max → overflows lda = false →
      n ≤ (mem.ipiv.length : Int) →
      ∃ c, (run (hecon_3 cd K uplo n lda anorm) mem).2.calls = [c] ∧
        c.ipiv_.length = n.toNat ∧
        (∀ (i : Nat) (hi : i < mem.ipiv.length), (i : Int) < n →
          c.ipiv_[i]? = some (toBlasInt mem.ipiv[i])) ∧
        ((K c).info_ < 0 →
          (run (hecon_3 cd K uplo n lda anorm) mem).1 = .error Failure.Error) ∧
        (0 ≤ (K c).info_ →
          (run (hecon_3 cd K uplo n lda anorm) mem).1 = .ok (K c).info_) ∧
        (run (hecon_3 cd K uplo n lda anorm) mem).2.mem.rcond = (K c).rcond) := by
  refine ⟨hecon_3_ipiv_unchanged cd K uplo n lda anorm mem, ?_⟩
  intro hn hmax h2 hlen
  have h1 : overflows n = false :=
    not_overflows_of_symmetric ⟨by omega, by unfold blas_int_max at hmax; omega⟩
  rw [hecon_3_run_call cd K uplo n lda anorm mem ⟨h1, h2⟩ hn]
  refine ⟨_, rfl, ?_, ?_, ?_, ?_, rfl⟩
  · show ((mem.ipiv.take n.toNat).map toBlasInt).length = n.toNat
    rw [List.length_map, List.length_take]
    omega
  · intro i hi hin
    show ((mem.ipiv.take n.toNat).map toBlasInt)[i]? = _
    have hi1 : i < n.toNat := by omega
    simp [List.getElem?_take, hi1, List.getElem?_eq_getElem hi]
  · intro hneg
    dsimp only
    rw [if_pos hneg]
  · intro hpos
    dsimp only
    rw [if_neg (not_lt.mpr hpos)]

/-- C9 at a concrete call: the kernel overwrites the temporary with `7` and the
caller's `[2, 1, 3]` is untouched; the status `0` and `rcond = 5` come back. -/
theorem hecon_3_input_only_pivots_witness :
    (run (hecon_3 sampleJobCodes (hecon3Stub 0) Uplo.Lower 3 3 (1 : Int))
      { ipiv := [2, 1, 3], rcond := 0, bufs := () }).2.mem.ipiv = [2, 1, 3] ∧
    ∃ c, (run (hecon_3 sampleJobCodes (hecon3Stub 0) Uplo.Lower 3 3 (1 : Int))
        { ipiv := [2, 1, 3], rcond := 0, bufs := () }).2.calls = [c] ∧
      c.ipiv_.length = (3 : Int).toNat ∧
      (∀ (i : Nat) (hi : i < [(2 : Int), 1, 3].length), (i : Int) < 3 →
        c.ipiv_[i]? = some (toBlasInt [(2 : Int), 1, 3][i])) ∧
      ((hecon3Stub 0 c).info_ < 0 →
        (run (hecon_3 sampleJobCodes (hecon3Stub 0) Uplo.Lower 3 3 (1 : Int))
          { ipiv := [2, 1, 3], rcond := 0, bufs := () }).1 =
          .error Failure.Error) ∧
      (0 ≤ (hecon3Stub 0 c).info_ →
        (run (hecon_3 sampleJobCodes (hecon3Stub 0) Uplo.Lower 3 3 (1 : Int))
          { ipiv := [2, 1, 3], rcond := 0, bufs := () }).1 =
          .ok (hecon3Stub 0 c).info_) ∧
      (run (hecon_3 sampleJobCodes (hecon3Stub 0) Uplo.Lower 3 3 (1 : Int))
        { ipiv := [2, 1, 3], rcond := 0, bufs := () }).2.mem.rcond =
        (hecon3Stub 0 c).rcond :=
  ⟨(hecon_3_input_only_pivots sampleJobCodes (hecon3Stub 0) Uplo.Lower 3 3
      (1 : Int) { ipiv := [2, 1, 3], rcond := 0, bufs := () }).1,
   (hecon_3_input_only_pivots sampleJobCodes (hecon3Stub 0) Uplo.Lower 3 3
      (1 : Int) { ipiv := [2, 1, 3], rcond := 0, bufs := () }).2
      (by decide) (by decide) (by decide) (by decide)⟩

/-! ## gesdd: the real workspace of the complex overloads (C11, C12) -/

section gesdd

variable {D : Type} (cd : JobCodes) (t : Elem) (K : GesddCall D → GesddOut D)
  (jobz : Job) (m n lda ldu ldvt : Int) (bufs : D)

theorem gesdd_run_overflow (h : ¬ gesddChecked m n lda ldu ldvt) :
    run (gesdd cd t K jobz m n lda ldu ldvt) bufs =
      (.error Failure.ArgumentOverflow, ⟨[], [], bufs⟩) := by
  simp only [gesdd, run, bind_eq, seq_throw_if]
  by_cases h1 : overflows m = true
  · rw [if_pos h1]
  rw [if_neg h1]
  by_cases h2 : overflows n = true
  · rw [if_pos h2]
  rw [if_neg h2]
  by_cases h3 : overflows lda = true
  · rw [if_pos h3]
  rw [if_neg h3]
  by_cases h4 : overflows ldu = true
  · rw [if_pos h4]
  rw [if_neg h4]
  by_cases h5 : overflows ldvt = true
  · rw [if_pos h5]
  exact absurd ⟨Bool.eq_false_iff.mpr h1, Bool.eq_false_iff.mpr h2,
    Bool.eq_false_iff.mpr h3, Bool.eq_false_iff.mpr h4,
    Bool.eq_false_iff.mpr h5⟩ h

/-- Every kernel invocation of `gesdd` is the query or, after a query that
succeeded, the real invocation built from what the query left. -/
theorem gesdd_mem_calls (c : GesddCall D)
    (hc : c ∈ (run (gesdd cd t K jobz m n lda ldu ldvt) bufs).2.calls) :
    gesddChecked m n lda ldu ldvt ∧
    (c = gesddQuery cd t jobz m n lda ldu ldvt bufs ∨
     (0 ≤ (K (gesddQuery cd t jobz m n lda ldu ldvt bufs)).info_ ∧
      c = gesddReal cd t jobz m n lda ldu ldvt
        (K (gesddQuery cd t jobz m n lda ldu ldvt bufs)))) := by
  by_cases h : gesddChecked m n lda ldu ldvt
  · refine ⟨h, ?_⟩
    obtain ⟨h1, h2, h3, h4, h5⟩ := h
    simp only [gesdd, run, bind_eq, pure_eq, seq_throw_if, seq_getMem,
      seq_vector, seq_invoke, seq_modifyMem, seq_ite, seq_raise, seq_ret, seq_seq,
      h1, h2, h3, h4, h5, if_false, if_true, Bool.false_eq_true,
      List.nil_append, List.cons_append, ite_run, raise_apply, ret_apply] at hc
    by_cases hz : realToBlasInt
      (K (gesddQuery cd t jobz m n lda ldu ldvt bufs)).rwork0 = 0
    all_goals
      simp only [gesddQuery] at hz
      simp only [gesddQuery, gesddReal, gesddLrwork, hz, if_false, if_true]
      simp only [hz, if_false, if_true] at hc
      cases t <;> simp only [Elem.isComplex, if_false, if_true,
        Bool.false_eq_true] at hc ⊢
      all_goals
        repeat' split at hc
        all_goals
          simp only [List.mem_cons, List.mem_singleton, List.not_mem_nil,
            or_false] at hc
          rcases hc with rfl | rfl
          all_goals first
            | exact Or.inl rfl
            | exact Or.inr ⟨by omega, rfl⟩
  · rw [gesdd_run_overflow cd t K jobz m n lda ldu ldvt bufs h] at hc
    exact absurd hc (List.not_mem_nil c)

end gesdd

theorem lrworkFallback_pos (jobz : Job) (m n : Int) :
    1 ≤ lrworkFallback jobz m n := by
  unfold lrworkFallback
  exact le_max_left _ _

/-- C11, at the failing input: a complex `gesdd` with `m = n = 25000` and a job
other than `NoVec` passes the checks, the query succeeds and leaves `0` in the
real-workspace slot; both `5*mn*mn + 5*mn` and `2*mx*mn + 2*mn*mn + mn` wrap to
negative `blas_int` values, so the real invocation is handed an `rwork` of one
element, where the formula of the documentation asks for `3125125000`. -/
theorem gesdd_fallback_wraps :
    gesddChecked 25000 25000 25000 25000 25000 ∧
    (run (gesdd sampleJobCodes Elem.c (gesddStub 100 0) Job.Vec 25000 25000 25000
      25000 25000) ()).1 = .ok 0 ∧
    (run (gesdd sampleJobCodes Elem.c (gesddStub 100 0) Job.Vec 25000 25000 25000
      25000 25000) ()).2.calls.map (fun c => (c.lwork_, c.rwork)) =
      [(-1, some 1), (100, some 1)] ∧
    max 1 (max (5 * min 25000 25000 * min 25000 25000 + 5 * min 25000 25000)
      (2 * max 25000 25000 * min 25000 25000
        + 2 * min 25000 25000 * min 25000 25000 + min 25000 25000)) =
      (3125125000 : Int) := by
  decide

/-- C12: in the complex overloads of `gesdd`, for every job and all `m`, `n`,
when the query leaves `0` in the real-workspace slot, the real invocation (the
one whose `lwork` is not the sentinel `-1`, made only after a successful query)
is handed an `rwork` of `lrworkFallback jobz m n` elements, which is at least
`1`, wrapped arithmetic included. -/
theorem gesdd_rwork_floor {D : Type} (cd : JobCodes) (t : Elem)
    (K : GesddCall D → GesddOut D) (jobz : Job) (m n lda ldu ldvt : Int)
    (bufs : D) (ht : t.isComplex = true)
    (hz : realToBlasInt
      (K (gesddQuery cd t jobz m n lda ldu ldvt bufs)).rwork0 = 0)
    (c : GesddCall D)
    (hc : c ∈ (run (gesdd cd t K jobz m n lda ldu ldvt) bufs).2.calls)
    (hreal : c.lwork_ ≠ -1) :
    0 ≤ (K (gesddQuery cd t jobz m n lda ldu ldvt bufs)).info_ ∧
    c.rwork = some (lrworkFallback jobz m n) ∧ 1 ≤ lrworkFallback jobz m n := by
  obtain ⟨_, h⟩ := gesdd_mem_calls cd t K jobz m n lda ldu ldvt bufs c hc
  rcases h with rfl | ⟨hq, rfl⟩
  · exact absurd rfl hreal
  · refine ⟨hq, ?_, lrworkFallback_pos jobz m n⟩
    show (if t.isComplex = true then some (gesddLrwork jobz m n _) else none) = _
    rw [if_pos ht]
    unfold gesddLrwork
    rw [if_pos hz]

/-- C12 at a concrete call, one at which the 32-bit arithmetic wraps: the real
invocation is handed an `rwork` of one element. -/
theorem gesdd_rwork_floor_witness :
    0 ≤ (gesddStub 100 0 (gesddQuery sampleJobCodes Elem.z Job.Vec 25000 25000
      25000 25000 25000 ())).info_ ∧
    (gesddReal sampleJobCodes Elem.z Job.Vec 25000 25000 25000 25000 25000
      (gesddStub 100 0 (gesddQuery sampleJobCodes Elem.z Job.Vec 25000 25000
        25000 25000 25000 ()))).rwork = some (lrworkFallback Job.Vec 25000 25000) ∧
    1 ≤ lrworkFallback Job.Vec 25000 25000 :=
  gesdd_rwork_floor sampleJobCodes Elem.z (gesddStub 100 0) Job.Vec 25000 25000
    25000 25000 25000 () (by decide) (by decide)
    (gesddReal sampleJobCodes Elem.z Job.Vec 25000 25000 25000 25000 25000
      (gesddStub 100 0 (gesddQuery sampleJobCodes Elem.z Job.Vec 25000 25000
        25000 25000 25000 ())))
    (by decide) (by decide)

/-! ## langb: the workspace and the empty matrix (C13, C14) -/

section langb

variable {D F : Type} (n2c : Norm → Char) (K : LangbCall D → F) (norm : Norm)
  (n kl ku ldab : Int) (bufs : D)

theorem langb_run_overflow
    (h : ¬ (overflows n = false ∧ overflows kl = false ∧ overflows ku = false ∧
      overflows ldab = false)) :
    run (langb n2c K norm n kl ku ldab) bufs =
      (.error Failure.ArgumentOverflow, ⟨[], [], bufs⟩) := by
  simp only [langb, run, bind_eq, seq_throw_if]
  by_cases h1 : overflows n = true
  · rw [if_pos h1]
  rw [if_neg h1]
  by_cases h2 : overflows kl = true
  · rw [if_pos h2]
  rw [if_neg h2]
  by_cases h3 : overflows ku = true
  · rw [if_pos h3]
  rw [if_neg h3]
  by_cases h4 : overflows ldab = true
  · rw [if_pos h4]
  exact absurd ⟨Bool.eq_false_iff.mpr h1, Bool.eq_false_iff.mpr h2,
    Bool.eq_false_iff.mpr h3, Bool.eq_false_iff.mpr h4⟩ h

theorem langb_run_call
    (h : overflows n = false ∧ overflows kl = false ∧ overflows ku = false ∧
      overflows ldab = false) :
    run (langb n2c K norm n kl ku ldab) bufs =
      (.ok (K (langbArgs n2c norm n kl ku ldab bufs)),
       ⟨[langbArgs n2c norm n kl ku ldab bufs],
        [(Buf.work, max 1 (if norm = Norm.Inf then n else 1))], bufs⟩) := by
  obtain ⟨h1, h2, h3, h4⟩ := h
  have hw : ¬ max 1 (if norm = Norm.Inf then n else 1) < 0 := by
    have := le_max_left (1 : Int) (if norm = Norm.Inf then n else 1)
    omega
  simp only [langbArgs]
  simp only [langb, run, bind_eq, pure_eq, seq_throw_if, seq_getMem, seq_vector,
    h1, h2, h3, h4, hw, if_false, if_true, Bool.false_eq_true, List.nil_append,
    List.cons_append]
  rfl

end langb

/-- C13: for every norm and every `n` (zero and negative included), once the
overflow checks of `langb` have passed the kernel is invoked exactly once, with a
workspace of `max(1, n)` elements for the infinity norm and of one element for
every other norm; that workspace is the only vector constructed and its length
is never below one. -/
theorem langb_workspace_floor {D F : Type} (n2c : Norm → Char)
    (K : LangbCall D → F) (norm : Norm) (n kl ku ldab : Int) (bufs : D)
    (hchk : overflows n = false ∧ overflows kl = false ∧ overflows ku = false ∧
      overflows ldab = false) :
    ∃ c, (run (langb n2c K norm n kl ku ldab) bufs).2.calls = [c] ∧
      (norm = Norm.Inf → c.work = max 1 n) ∧
      (norm ≠ Norm.Inf → c.work = 1) ∧
      1 ≤ c.work ∧
      (run (langb n2c K norm n kl ku ldab) bufs).2.allocs = [(Buf.work, c.work)] := by
  rw [langb_run_call n2c K norm n kl ku ldab bufs hchk]
  refine ⟨_, rfl, ?_, ?_, ?_, rfl⟩
  · intro h
    show max 1 (if norm = Norm.Inf then n else 1) = max 1 n
    rw [if_pos h]
  · intro h
    show max 1 (if norm = Norm.Inf then n else 1) = 1
    rw [if_neg h]
    rfl
  · exact le_max_left _ _

/-- C13 at a concrete call: the infinity norm with `n = 0` gets a workspace of
one element. -/
theorem langb_workspace_floor_witness :
    ∃ c, (run (langb norm2char langbStub Norm.Inf 0 1 1 3) ()).2.calls = [c] ∧
      (Norm.Inf = Norm.Inf → c.work = max 1 0) ∧
      (Norm.Inf ≠ Norm.Inf → c.work = 1) ∧
      1 ≤ c.work ∧
      (run (langb norm2char langbStub Norm.Inf 0 1 1 3) ()).2.allocs =
        [(Buf.work, c.work)] :=
  langb_workspace_floor norm2char langbStub Norm.Inf 0 1 1 3 () (by decide)

/-- C14: for every norm, every `kl`, `ku`, `ldab` that pass the checks and every
buffer, `langb` called with `n = 0` invokes the kernel exactly once, with order
`0` and a workspace of one element, and returns what the kernel returns: zero,
for a kernel that returns zero on an empty matrix as the documentation of
`langb` states. -/
theorem langb_empty_matrix {D F : Type} (zero : F) (n2c : Norm → Char)
    (K : LangbCall D → F) (norm : Norm) (kl ku ldab : Int) (bufs : D)
    (hchk : overflows kl = false ∧ overflows ku = false ∧ overflows ldab = false)
    (hK : ReturnsZeroOnEmpty zero K) :
    (run (langb n2c K norm 0 kl ku ldab) bufs).1 = .ok zero ∧
    ∃ c, (run (langb n2c K norm 0 kl ku ldab) bufs).2.calls = [c] ∧
      c.n_ = 0 ∧ c.work = 1 ∧
      (run (langb n2c K norm 0 kl ku ldab) bufs).1 = .ok (K c) := by
  rw [langb_run_call n2c K norm 0 kl ku ldab bufs ⟨by decide, hchk⟩]
  have hn : (langbArgs n2c norm 0 kl ku ldab bufs).n_ = 0 := by
    show toBlasInt 0 = 0
    decide
  refine ⟨?_, _, rfl, hn, ?_, rfl⟩
  · show Except.ok (K (langbArgs n2c norm 0 kl ku ldab bufs)) = Except.ok zero
    rw [hK _ hn]
  · show max 1 (if norm = Norm.Inf then (0 : Int) else 1) = 1
    split <;> rfl

/-- C14 at a concrete call: the Frobenius norm of an empty band matrix. -/
theorem langb_empty_matrix_witness :
    (run (langb norm2char langbStub Norm.Fro 0 1 1 3) ()).1 = .ok 0 ∧
    ∃ c, (run (langb norm2char langbStub Norm.Fro 0 1 1 3) ()).2.calls = [c] ∧
      c.n_ = 0 ∧ c.work = 1 ∧
      (run (langb norm2char langbStub Norm.Fro 0 1 1 3) ()).1 =
        .ok (langbStub c) :=
  langb_empty_matrix (0 : Int) norm2char langbStub Norm.Fro 1 1 3 () (by decide)
    (fun _ h => h)

/-! ## Option tables: round trip (C15) -/

/-- C15: for each of the six enumerations (factorization state, transpose mode,
triangle, equilibration state, job, norm), decoding the code of a member gives
that member back, and distinct members have distinct codes. -/
theorem option_round_trip :
    ((∀ e, char2factored (factored2char e) = some e) ∧
      Function.Injective factored2char) ∧
    ((∀ e, char2op (op2char e) = some e) ∧ Function.Injective op2char) ∧
    ((∀ e, char2uplo (uplo2char e) = some e) ∧ Function.Injective uplo2char) ∧
    ((∀ e, char2equed (equed2char e) = some e) ∧
      Function.Injective equed2char) ∧
    ((∀ e, char2job (job2char e) = some e) ∧ Function.Injective job2char) ∧
    ((∀ e, char2norm (norm2char e) = some e) ∧ Function.Injective norm2char) := by
  refine ⟨⟨?_, ?_⟩, ⟨?_, ?_⟩, ⟨?_, ?_⟩, ⟨?_, ?_⟩, ⟨?_, ?_⟩, ⟨?_, ?_⟩⟩
  · intro e; cases e <;> decide
  · intro a b h; cases a <;> cases b <;> first | rfl | exact absurd h (by decide)
  · intro e; cases e <;> decide
  · intro a b h; cases a <;> cases b <;> first | rfl | exact absurd h (by decide)
  · intro e; cases e <;> decide
  · intro a b h; cases a <;> cases b <;> first | rfl | exact absurd h (by decide)
  · intro e; cases e <;> decide
  · intro a b h; cases a <;> cases b <;> first | rfl | exact absurd h (by decide)
  · intro e; cases e <;> decide
  · intro a b h; cases a <;> cases b <;> first | rfl | exact absurd h (by decide)
  · intro e; cases e <;> decide
  · intro a b h; cases a <;> cases b <;> first | rfl | exact absurd h (by decide)

/-- A decoder of the tables accepts no other code than those of the members:
what `char2equed` decodes is the code of the member it yields. -/
theorem char2equed_eq_some {ch : Char} {e : Equed} (h : char2equed ch = some e) :
    equed2char e = ch := by
  unfold char2equed at h
  split_ifs at h with h1 h2 h3 h4 <;> cases h
  · exact h1.symm
  · exact h2.symm
  · exact h3.symm
  · exact h4.symm

/-! ## geqrt3: the wrapper and the direct kernel call (C16) -/

/-- C16: for all `m`, `n`, `lda`, `ldt` that pass the overflow checks, `geqrt3`
invokes the kernel exactly once, on the arguments of the direct call; the
buffers `A, T` after the call are those the direct call leaves; the wrapper
returns the direct call's status when that status is `≥ 0` and raises when it
is negative.  The conversion at the call leaves every `int64_t` argument
other than `INT64_MIN` as it is. -/
theorem geqrt3_refines_direct {D : Type} (K : Geqrt3Call D → Geqrt3Out D)
    (m n lda ldt : Int) (bufs : D)
    (hchk : overflows m = false ∧ overflows n = false ∧ overflows lda = false ∧
      overflows ldt = false) :
    (run (geqrt3 K m n lda ldt) bufs).2.calls =
      [{ m_ := toBlasInt m, n_ := toBlasInt n, lda_ := toBlasInt lda,
         ldt_ := toBlasInt ldt, bufs := bufs }] ∧
    (run (geqrt3 K m n lda ldt) bufs).2.mem = (geqrt3Direct K m n lda ldt bufs).2 ∧
    (0 ≤ (geqrt3Direct K m n lda ldt bufs).1 →
      (run (geqrt3 K m n lda ldt) bufs).1 =
        .ok (geqrt3Direct K m n lda ldt bufs).1) ∧
    ((geqrt3Direct K m n lda ldt bufs).1 < 0 →
      (run (geqrt3 K m n lda ldt) bufs).1 = .error Failure.Error) ∧
    (∀ v ∈ [m, n, lda, ldt], isInt64 v → v ≠ -9223372036854775808 →
      toBlasInt v = v) := by
  have hv : ∀ v ∈ [m, n, lda, ldt], isInt64 v → v ≠ -9223372036854775808 →
      toBlasInt v = v := by
    intro v hv h64 hmin
    obtain ⟨h1, h2, h3, h4⟩ := hchk
    simp only [List.mem_cons, List.mem_singleton, List.not_mem_nil, or_false] at hv
    rcases hv with rfl | rfl | rfl | rfl
    · exact toBlasInt_of_not_overflows h64 hmin h1
    · exact toBlasInt_of_not_overflows h64 hmin h2
    · exact toBlasInt_of_not_overflows h64 hmin h3
    · exact toBlasInt_of_not_overflows h64 hmin h4
  rw [geqrt3_run_call K m n lda ldt bufs hchk]
  refine ⟨rfl, rfl, ?_, ?_, hv⟩
  · intro h
    have h1 : ¬ (K (geqrt3Args m n lda ldt bufs)).info_ < 0 := not_lt.mpr h
    show (if (K (geqrt3Args m n lda ldt bufs)).info_ < 0 then _ else _) = _
    rw [if_neg h1]
    rfl
  · intro h
    have h1 : (K (geqrt3Args m n lda ldt bufs)).info_ < 0 := h
    show (if (K (geqrt3Args m n lda ldt bufs)).info_ < 0 then _ else _) = _
    rw [if_pos h1]

/-- C16 at a concrete call: a 50 by 30 factorization on which the kernel reports
`0`. -/
theorem geqrt3_refines_direct_witness :
    (run (geqrt3 (geqrt3Stub 0) 50 30 50 30) ()).2.calls =
      [{ m_ := toBlasInt 50, n_ := toBlasInt 30, lda_ := toBlasInt 50,
         ldt_ := toBlasInt 30, bufs := () }] ∧
    (run (geqrt3 (geqrt3Stub 0) 50 30 50 30) ()).2.mem =
      (geqrt3Direct (geqrt3Stub 0) 50 30 50 30 ()).2 ∧
    (0 ≤ (geqrt3Direct (geqrt3Stub 0) 50 30 50 30 ()).1 →
      (run (geqrt3 (geqrt3Stub 0) 50 30 50 30) ()).1 =
        .ok (geqrt3Direct (geqrt3Stub 0) 50 30 50 30 ()).1) ∧
    ((geqrt3Direct (geqrt3Stub 0) 50 30 50 30 ()).1 < 0 →
      (run (geqrt3 (geqrt3Stub 0) 50 30 50 30) ()).1 = .error Failure.Error) ∧
    (∀ v ∈ [(50 : Int), 30, 50, 30], isInt64 v → v ≠ -9223372036854775808 →
      toBlasInt v = v) :=
  geqrt3_refines_direct (geqrt3Stub 0) 50 30 50 30 () (by decide)

/-! ## gbsvx: workspaces, equilibration code, overloads (C17 to C20) -/

section gbsvx_more

variable {D : Type} (cd : Codes) (t : Elem) (K : GbsvxCall D → GbsvxOut D)
  (fact : Factored) (trans : Op) (a : GbsvxDims) (mem : GbsvxMem D)

/-- The calls and the vectors of `gbsvx` once the checks have passed with a
non-negative order. -/
theorem gbsvx_calls_allocs (h : a.checked) (hn : 0 ≤ a.n) :
    (run (gbsvx cd t K fact trans a) mem).2.calls =
      [gbsvxArgs cd t fact trans a mem] ∧
    (run (gbsvx cd t K fact trans a) mem).2.allocs = gbsvxAllocs t a.n := by
  rcases gbsvx_run_cases cd t K fact trans a mem with
    ⟨h1, _⟩ | ⟨_, h2, _⟩ | ⟨_, _, _, h3⟩ | ⟨_, _, _, _, h3⟩ | ⟨_, _, _, e, _, h3⟩
  · exact absurd h h1
  · omega
  · rw [h3]; exact ⟨rfl, rfl⟩
  · rw [h3]; exact ⟨rfl, rfl⟩
  · rw [h3]; exact ⟨rfl, rfl⟩

/-- The overflow failure is raised exactly when a check fails. -/
theorem gbsvx_overflow_iff :
    (run (gbsvx cd t K fact trans a) mem).1 = .error Failure.ArgumentOverflow ↔
      ¬ a.checked := by
  rcases gbsvx_run_cases cd t K fact trans a mem with
    ⟨h1, h3⟩ | ⟨h1, _, h3⟩ | ⟨h1, _, _, h3⟩ | ⟨h1, _, _, _, h3⟩ |
    ⟨h1, _, _, e, _, h3⟩
  · rw [h3]; exact ⟨fun _ => h1, fun _ => rfl⟩
  · rw [h3]; exact ⟨fun h => (by cases h), fun h => absurd h1 h⟩
  · rw [h3]; exact ⟨fun h => (by cases h), fun h => absurd h1 h⟩
  · rw [h3]; exact ⟨fun h => (by cases h), fun h => absurd h1 h⟩
  · rw [h3]; exact ⟨fun h => (by cases h), fun h => absurd h1 h⟩

end gbsvx_more

/-- C20: for every `n ≥ 0`, once the overflow checks have passed, `gbsvx` makes
exactly one kernel invocation (there is no query: the kernel has no workspace
length argument); the real overloads hand it a main workspace of `3*n` elements
and an integer workspace of `n` elements, the complex overloads a main workspace
of `2*n` elements and a real workspace of `n` elements. -/
theorem gbsvx_workspace_sizes {D : Type} (cd : Codes) (t : Elem)
    (K : GbsvxCall D → GbsvxOut D) (fact : Factored) (trans : Op)
    (a : GbsvxDims) (mem : GbsvxMem D) (hchk : a.checked) (hn : 0 ≤ a.n) :
    ∃ c, (run (gbsvx cd t K fact trans a) mem).2.calls = [c] ∧
      c.work2 = a.n ∧
      (t.isComplex = false →
        c.work = 3 * a.n ∧
        (run (gbsvx cd t K fact trans a) mem).2.allocs =
          [(Buf.ipiv_, a.n), (Buf.work, 3 * a.n), (Buf.iwork, a.n)]) ∧
      (t.isComplex = true →
        c.work = 2 * a.n ∧
        (run (gbsvx cd t K fact trans a) mem).2.allocs =
          [(Buf.ipiv_, a.n), (Buf.work, 2 * a.n), (Buf.rwork, a.n)]) := by
  obtain ⟨hc, ha⟩ := gbsvx_calls_allocs cd t K fact trans a mem hchk hn
  refine ⟨_, hc, rfl, ?_, ?_⟩
  · intro ht
    rw [ha]
    simp [gbsvxArgs, gbsvxAllocs, ht]
  · intro ht
    rw [ha]
    simp [gbsvxArgs, gbsvxAllocs, ht]

/-- C20 at a concrete call: order 2, the `double` overload. -/
theorem gbsvx_workspace_sizes_witness :
    ∃ c, (run (gbsvx sampleCodes Elem.d (gbsvxStub 0) Factored.NotFactored
        Op.NoTrans dimsTwo) memTwo).2.calls = [c] ∧
      c.work2 = dimsTwo.n ∧
      (Elem.d.isComplex = false →
        c.work = 3 * dimsTwo.n ∧
        (run (gbsvx sampleCodes Elem.d (gbsvxStub 0) Factored.NotFactored
          Op.NoTrans dimsTwo) memTwo).2.allocs =
          [(Buf.ipiv_, dimsTwo.n), (Buf.work, 3 * dimsTwo.n),
           (Buf.iwork, dimsTwo.n)]) ∧
      (Elem.d.isComplex = true →
        c.work = 2 * dimsTwo.n ∧
        (run (gbsvx sampleCodes Elem.d (gbsvxStub 0) Factored.NotFactored
          Op.NoTrans dimsTwo) memTwo).2.allocs =
          [(Buf.ipiv_, dimsTwo.n), (Buf.work, 2 * dimsTwo.n),
           (Buf.rwork, dimsTwo.n)]) :=
  gbsvx_workspace_sizes sampleCodes Elem.d (gbsvxStub 0) Factored.NotFactored
    Op.NoTrans dimsTwo memTwo (by decide) (by decide)

/-- C19: every kernel invocation of `gbsvx` receives in its equilibration slot
the encoding of the entry value of `*equed`; in every call that returns
normally the kernel was invoked exactly once and `*equed` on exit is the
decoding of the code the kernel left in that slot. -/
theorem gbsvx_equed_read_back {D : Type} (cd : Codes) (t : Elem)
    (K : GbsvxCall D → GbsvxOut D) (fact : Factored) (trans : Op)
    (a : GbsvxDims) (mem : GbsvxMem D) :
    (∀ c ∈ (run (gbsvx cd t K fact trans a) mem).2.calls,
      c.equed_ = cd.equed2char mem.equed) ∧
    (∀ v, (run (gbsvx cd t K fact trans a) mem).1 = .ok v →
      ∃ c, (run (gbsvx cd t K fact trans a) mem).2.calls = [c] ∧
        cd.char2equed (K c).equed_ =
          some (run (gbsvx cd t K fact trans a) mem).2.mem.equed) := by
  constructor
  · intro c hc
    obtain ⟨_, _, rfl⟩ := gbsvx_mem_calls cd t K fact trans a mem c hc
    rfl
  · intro v hv
    rcases gbsvx_run_cases cd t K fact trans a mem with
      ⟨_, h⟩ | ⟨_, _, h⟩ | ⟨_, _, _, h⟩ | ⟨_, _, _, _, h⟩ | ⟨_, _, _, e, he, h⟩
    · rw [h] at hv; cases hv
    · rw [h] at hv; cases hv
    · rw [h] at hv; cases hv
    · rw [h] at hv; cases hv
    · rw [h]
      exact ⟨_, rfl, he⟩

/-- C19 at a concrete call: the kernel finds `'N'`, leaves `'B'`, and the caller
reads `Equed.Both`. -/
theorem gbsvx_equed_read_back_witness :
    ∃ c, (run (gbsvx sampleCodes Elem.s (gbsvxStubWrite 0) Factored.Equilibrate
        Op.NoTrans dimsTwo) memTwo).2.calls = [c] ∧
      sampleCodes.char2equed (gbsvxStubWrite 0 c).equed_ =
        some (run (gbsvx sampleCodes Elem.s (gbsvxStubWrite 0)
          Factored.Equilibrate Op.NoTrans dimsTwo) memTwo).2.mem.equed :=
  (gbsvx_equed_read_back sampleCodes Elem.s (gbsvxStubWrite 0)
    Factored.Equilibrate Op.NoTrans dimsTwo memTwo).2 0 (by decide)

/-- C18: with the option table modelled from the spec, when the kernel invoked
by `gbsvx` reports a status `≥ 0` and leaves a code that is the encoding of no
member of `Equed`, the call fails instead of returning, and `*equed` keeps its
entry value. -/
theorem gbsvx_unrecognized_equed {D : Type} (t : Elem)
    (K : GbsvxCall D → GbsvxOut D) (fact : Factored) (trans : Op)
    (a : GbsvxDims) (mem : GbsvxMem D) (c : GbsvxCall D)
    (hcall : c ∈ (run (gbsvx utilCodes t K fact trans a) mem).2.calls)
    (hinfo : 0 ≤ (K c).info_)
    (hcode : ∀ e : Equed, equed2char e ≠ (K c).equed_) :
    (run (gbsvx utilCodes t K fact trans a) mem).1 = .error Failure.BadCode ∧
    (∀ v, (run (gbsvx utilCodes t K fact trans a) mem).1 ≠ .ok v) ∧
    (run (gbsvx utilCodes t K fact trans a) mem).2.mem.equed = mem.equed := by
  obtain ⟨hchk, hn, rfl⟩ := gbsvx_mem_calls utilCodes t K fact trans a mem c hcall
  have hnone : utilCodes.char2equed
      (K (gbsvxArgs utilCodes t fact trans a mem)).equed_ = none := by
    show char2equed (K (gbsvxArgs utilCodes t fact trans a mem)).equed_ = none
    cases hd : char2equed (K (gbsvxArgs utilCodes t fact trans a mem)).equed_ with
    | none => rfl
    | some e => exact absurd (char2equed_eq_some hd) (hcode e)
  rw [gbsvx_run_badcode utilCodes t K fact trans a mem hchk hn (not_lt.mpr hinfo)
    hnone]
  refine ⟨rfl, ?_, rfl⟩
  intro v hv
  cases hv

/-- C18 at a concrete call: the kernel leaves `'X'` with status `0`. -/
theorem gbsvx_unrecognized_equed_witness :
    (run (gbsvx utilCodes Elem.s (gbsvxStubCode 'X' 0) Factored.Equilibrate
      Op.NoTrans dimsTwo) memTwo).1 = .error Failure.BadCode ∧
    (∀ v, (run (gbsvx utilCodes Elem.s (gbsvxStubCode 'X' 0) Factored.Equilibrate
      Op.NoTrans dimsTwo) memTwo).1 ≠ .ok v) ∧
    (run (gbsvx utilCodes Elem.s (gbsvxStubCode 'X' 0) Factored.Equilibrate
      Op.NoTrans dimsTwo) memTwo).2.mem.equed = memTwo.equed :=
  gbsvx_unrecognized_equed Elem.s (gbsvxStubCode 'X' 0) Factored.Equilibrate
    Op.NoTrans dimsTwo memTwo
    (gbsvxArgs utilCodes Elem.s Factored.Equilibrate Op.NoTrans dimsTwo memTwo)
    (by decide) (by decide) (fun e => by cases e <;> decide)

theorem gbsvx_calls_nil {D : Type} (cd : Codes) (t : Elem)
    (K : GbsvxCall D → GbsvxOut D) (fact : Factored) (trans : Op)
    (a : GbsvxDims) (mem : GbsvxMem D) (h : ¬ (a.checked ∧ 0 ≤ a.n)) :
    (run (gbsvx cd t K fact trans a) mem).2.calls = [] := by
  rcases gbsvx_run_cases cd t K fact trans a mem with
    ⟨_, h3⟩ | ⟨_, _, h3⟩ | ⟨h1, h2, _⟩ | ⟨h1, h2, _⟩ | ⟨h1, h2, _⟩
  · rw [h3]
  · rw [h3]
  · exact absurd ⟨h1, h2⟩ h
  · exact absurd ⟨h1, h2⟩ h
  · exact absurd ⟨h1, h2⟩ h

/-- C17, as stated, fails: on the same arguments the `float` overload hands the
kernel a main workspace of `3*n = 6` elements and the `std::complex<float>`
overload one of `2*n = 4` elements. -/
theorem gbsvx_overloads_workspace_differs :
    (run (gbsvx sampleCodes Elem.s (gbsvxStub 0) Factored.NotFactored Op.NoTrans
      dimsTwo) memTwo).2.calls.map (fun c => c.work) = [6] ∧
    (run (gbsvx sampleCodes Elem.c (gbsvxStub 0) Factored.NotFactored Op.NoTrans
      dimsTwo) memTwo).2.calls.map (fun c => c.work) = [4] := by
  decide

/-- C17, amended: for equal `fact`, `trans`, integer arguments, `ipiv` and
`*equed`, any two overloads of `gbsvx` raise the overflow failure under the same
condition, invoke the kernel the same number of times, and hand it the same
option codes, narrowed integers, pivot temporary and second workspace length;
the main workspace has `3*n` elements in a real overload and `2*n` in a complex
one; and when the two kernels leave the same status, code and pivots, the two
calls end the same way, with the same `ipiv` and `*equed`. -/
theorem gbsvx_overloads_agree {D1 D2 : Type} (cd : Codes) (t1 t2 : Elem)
    (K1 : GbsvxCall D1 → GbsvxOut D1) (K2 : GbsvxCall D2 → GbsvxOut D2)
    (fact : Factored) (trans : Op) (a : GbsvxDims)
    (mem1 : GbsvxMem D1) (mem2 : GbsvxMem D2)
    (hi : mem1.ipiv = mem2.ipiv) (he : mem1.equed = mem2.equed) :
    ((run (gbsvx cd t1 K1 fact trans a) mem1).1 = .error Failure.ArgumentOverflow ↔
      (run (gbsvx cd t2 K2 fact trans a) mem2).1 =
        .error Failure.ArgumentOverflow) ∧
    (run (gbsvx cd t1 K1 fact trans a) mem1).2.calls.length =
      (run (gbsvx cd t2 K2 fact trans a) mem2).2.calls.length ∧
    (∀ c1 ∈ (run (gbsvx cd t1 K1 fact trans a) mem1).2.calls,
      ∀ c2 ∈ (run (gbsvx cd t2 K2 fact trans a) mem2).2.calls,
      (c1.fact_ = c2.fact_ ∧ c1.trans_ = c2.trans_ ∧ c1.n_ = c2.n_ ∧
        c1.kl_ = c2.kl_ ∧ c1.ku_ = c2.ku_ ∧ c1.nrhs_ = c2.nrhs_ ∧
        c1.ldab_ = c2.ldab_ ∧ c1.ldafb_ = c2.ldafb_ ∧ c1.ipiv_ = c2.ipiv_ ∧
        c1.equed_ = c2.equed_ ∧ c1.ldb_ = c2.ldb_ ∧ c1.ldx_ = c2.ldx_ ∧
        c1.work2 = c2.work2) ∧
      c1.work = (if t1.isComplex then 2 * a.n else 3 * a.n) ∧
      c2.work = (if t2.isComplex then 2 * a.n else 3 * a.n) ∧
      ((K1 c1).info_ = (K2 c2).info_ → (K1 c1).equed_ = (K2 c2).equed_ →
        (∀ i, (K1 c1).ipiv_ i = (K2 c2).ipiv_ i) →
        (run (gbsvx cd t1 K1 fact trans a) mem1).1 =
          (run (gbsvx cd t2 K2 fact trans a) mem2).1 ∧
        (run (gbsvx cd t1 K1 fact trans a) mem1).2.mem.ipiv =
          (run (gbsvx cd t2 K2 fact trans a) mem2).2.mem.ipiv ∧
        (run (gbsvx cd t1 K1 fact trans a) mem1).2.mem.equed =
          (run (gbsvx cd t2 K2 fact trans a) mem2).2.mem.equed)) := by
  refine ⟨?_, ?_, ?_⟩
  · rw [gbsvx_overflow_iff, gbsvx_overflow_iff]
  · by_cases h : a.checked ∧ 0 ≤ a.n
    · rw [(gbsvx_calls_allocs cd t1 K1 fact trans a mem1 h.1 h.2).1,
        (gbsvx_calls_allocs cd t2 K2 fact trans a mem2 h.1 h.2).1]
      rfl
    · rw [gbsvx_calls_nil cd t1 K1 fact trans a mem1 h,
        gbsvx_calls_nil cd t2 K2 fact trans a mem2 h]
      rfl
  · intro c1 hc1 c2 hc2
    obtain ⟨hchk, hn, rfl⟩ := gbsvx_mem_calls cd t1 K1 fact trans a mem1 c1 hc1
    obtain ⟨_, _, rfl⟩ := gbsvx_mem_calls cd t2 K2 fact trans a mem2 c2 hc2
    have hp : (gbsvxArgs cd t1 fact trans a mem1).ipiv_ =
        (gbsvxArgs cd t2 fact trans a mem2).ipiv_ := by
      show (mem1.ipiv.take a.n.toNat).map toBlasInt =
        (mem2.ipiv.take a.n.toNat).map toBlasInt
      rw [hi]
    have hq : (gbsvxArgs cd t1 fact trans a mem1).equed_ =
        (gbsvxArgs cd t2 fact trans a mem2).equed_ := by
      show cd.equed2char mem1.equed = cd.equed2char mem2.equed
      rw [he]
    refine ⟨⟨rfl, rfl, rfl, rfl, rfl, rfl, rfl, rfl, hp, hq, rfl, rfl, rfl⟩,
      rfl, rfl, ?_⟩
    intro hinfo hcode hpiv
    by_cases hneg : (K1 (gbsvxArgs cd t1 fact trans a mem1)).info_ < 0
    · rw [gbsvx_run_error cd t1 K1 fact trans a mem1 hchk hn hneg,
        gbsvx_run_error cd t2 K2 fact trans a mem2 hchk hn (hinfo ▸ hneg)]
      exact ⟨rfl, hi, he⟩
    · have hneg2 : ¬ (K2 (gbsvxArgs cd t2 fact trans a mem2)).info_ < 0 :=
        hinfo ▸ hneg
      cases hd : cd.char2equed (K1 (gbsvxArgs cd t1 fact trans a mem1)).equed_ with
      | none =>
        rw [gbsvx_run_badcode cd t1 K1 fact trans a mem1 hchk hn hneg hd,
          gbsvx_run_badcode cd t2 K2 fact trans a mem2 hchk hn hneg2
            (hcode ▸ hd)]
        exact ⟨rfl, hi, he⟩
      | some e =>
        rw [gbsvx_run_ok cd t1 K1 fact trans a mem1 hchk hn hneg e hd,
          gbsvx_run_ok cd t2 K2 fact trans a mem2 hchk hn hneg2 e (hcode ▸ hd)]
        refine ⟨by rw [hinfo], ?_, rfl⟩
        show copyInto ((List.range (gbsvxArgs cd t1 fact trans a mem1).ipiv_.length).map
            (K1 (gbsvxArgs cd t1 fact trans a mem1)).ipiv_) mem1.ipiv =
          copyInto ((List.range (gbsvxArgs cd t2 fact trans a mem2).ipiv_.length).map
            (K2 (gbsvxArgs cd t2 fact trans a mem2)).ipiv_) mem2.ipiv
        rw [hp, hi, funext hpiv]

/-- C17, amended, at a concrete pair of calls: the `float` and the
`std::complex<double>` overloads on the same arguments. -/
theorem gbsvx_overloads_agree_witness :
    (run (gbsvx sampleCodes Elem.s (gbsvxStub 0) Factored.NotFactored Op.NoTrans
      dimsTwo) memTwo).2.calls.length =
    (run (gbsvx sampleCodes Elem.z (gbsvxStubWrite 0) Factored.NotFactored
      Op.NoTrans dimsTwo) memTwo).2.calls.length :=
  (gbsvx_overloads_agree sampleCodes Elem.s Elem.z (gbsvxStub 0)
    (gbsvxStubWrite 0) Factored.NotFactored Op.NoTrans dimsTwo memTwo memTwo
    (by decide) (by decide)).2.1

/-! ## heevd: the three query slots (C21) -/

theorem heevd_run_two_calls {D : Type} (cd : JobCodes)
    (K : HeevdCall D → HeevdOut D) (jobz : Job) (uplo : Uplo) (n lda : Int)
    (bufs : D)
    (h : overflows n = false ∧ overflows lda = false)
    (hq : ¬ (K (heevdQuery cd jobz uplo n lda bufs)).info_ < 0)
    (hw : ¬ slotLength (K (heevdQuery cd jobz uplo n lda bufs)).work0 < 0)
    (hr : ¬ realToBlasInt
      (K (heevdQuery cd jobz uplo n lda bufs)).rwork0 < 0)
    (hi : ¬ (K (heevdQuery cd jobz uplo n lda bufs)).iwork0 < 0) :
    (run (heevd cd K jobz uplo n lda) bufs).2.calls =
      [heevdQuery cd jobz uplo n lda bufs,
       heevdReal cd jobz uplo n lda (K (heevdQuery cd jobz uplo n lda bufs))] ∧
    (run (heevd cd K jobz uplo n lda) bufs).2.allocs =
      [(Buf.work, slotLength (K (heevdQuery cd jobz uplo n lda bufs)).work0),
       (Buf.rwork,
         realToBlasInt (K (heevdQuery cd jobz uplo n lda bufs)).rwork0),
       (Buf.iwork, (K (heevdQuery cd jobz uplo n lda bufs)).iwork0)] := by
  obtain ⟨h1, h2⟩ := h
  simp only [heevdQuery, heevdReal] at hq hw hr hi ⊢
  simp only [heevd, run, bind_eq, pure_eq, seq_throw_if, seq_getMem, seq_vector,
    seq_invoke, seq_modifyMem, seq_ite, seq_raise, seq_ret, h1, h2, if_false,
    if_true, Bool.false_eq_true, List.nil_append, List.cons_append, ite_run,
    raise_apply, ret_apply, hq, hw, hr, hi]
  split <;> exact ⟨rfl, rfl⟩

/-- C21, as stated, fails: the checks pass and the query returns status `0`, but
the kernel has left `-1` in the real-workspace slot; the construction of
`rwork` raises and the kernel has been invoked once, not twice. -/
theorem heevd_negative_slot_single_call :
    (overflows 10 = false ∧ overflows 10 = false) ∧
    0 ≤ (heevdStubSlots 4 (-1) 3
      (heevdQuery sampleJobCodes Job.Vec Uplo.Lower 10 10 ())).info_ ∧
    (run (heevd sampleJobCodes (heevdStubSlots 4 (-1) 3) Job.Vec Uplo.Lower 10 10)
      ()).1 = .error Failure.length_error ∧
    (run (heevd sampleJobCodes (heevdStubSlots 4 (-1) 3) Job.Vec Uplo.Lower 10 10)
      ()).2.calls.length = 1 := by
  decide

/-- C21, amended: for every call of `heevd` that passes the overflow checks,
whose query invocation returns a status `≥ 0`, leaves in the workspace slot and
in the real-workspace slot values whose integer parts lie in `0 .. 2^31 - 1`,
and leaves a value `≥ 0` in the integer-workspace slot, the kernel is invoked
exactly twice: the query has `lwork = lrwork = liwork = -1`, and the real
invocation receives three workspaces whose lengths, and whose `lwork`,
`lrwork`, `liwork`, are exactly those three values; a floating-point slot
that holds an integer has that integer as its integer part. -/
theorem heevd_triple_query {D : Type} (cd : JobCodes)
    (K : HeevdCall D → HeevdOut D) (jobz : Job) (uplo : Uplo) (n lda : Int)
    (bufs : D)
    (hchk : overflows n = false ∧ overflows lda = false)
    (hq : 0 ≤ (K (heevdQuery cd jobz uplo n lda bufs)).info_)
    (hw0 : 0 ≤ truncQ (real (K (heevdQuery cd jobz uplo n lda bufs)).work0))
    (hw1 : truncQ (real (K (heevdQuery cd jobz uplo n lda bufs)).work0) ≤
      blas_int_max)
    (hr0 : 0 ≤ truncQ (K (heevdQuery cd jobz uplo n lda bufs)).rwork0)
    (hr1 : truncQ (K (heevdQuery cd jobz uplo n lda bufs)).rwork0 ≤ blas_int_max)
    (hi : 0 ≤ (K (heevdQuery cd jobz uplo n lda bufs)).iwork0) :
    (∃ c1 c2, (run (heevd cd K jobz uplo n lda) bufs).2.calls = [c1, c2] ∧
      c1.lwork_ = -1 ∧ c1.lrwork_ = -1 ∧ c1.liwork_ = -1 ∧
      c2.work = truncQ (real (K c1).work0) ∧
      c2.lwork_ = truncQ (real (K c1).work0) ∧
      c2.rwork = truncQ (K c1).rwork0 ∧
      c2.lrwork_ = truncQ (K c1).rwork0 ∧
      c2.iwork = (K c1).iwork0 ∧ c2.liwork_ = (K c1).iwork0) ∧
    (run (heevd cd K jobz uplo n lda) bufs).2.allocs =
      [(Buf.work, truncQ (real (K (heevdQuery cd jobz uplo n lda bufs)).work0)),
       (Buf.rwork, truncQ (K (heevdQuery cd jobz uplo n lda bufs)).rwork0),
       (Buf.iwork, (K (heevdQuery cd jobz uplo n lda bufs)).iwork0)] ∧
    (∀ L : Int,
      (real (K (heevdQuery cd jobz uplo n lda bufs)).work0 = (L : ℚ) →
        truncQ (real (K (heevdQuery cd jobz uplo n lda bufs)).work0) = L) ∧
      ((K (heevdQuery cd jobz uplo n lda bufs)).rwork0 = (L : ℚ) →
        truncQ (K (heevdQuery cd jobz uplo n lda bufs)).rwork0 = L)) := by
  have hs : slotLength (K (heevdQuery cd jobz uplo n lda bufs)).work0 =
      truncQ (real (K (heevdQuery cd jobz uplo n lda bufs)).work0) :=
    realToBlasInt_of_bounds hw0 hw1
  have hr : realToBlasInt (K (heevdQuery cd jobz uplo n lda bufs)).rwork0 =
      truncQ (K (heevdQuery cd jobz uplo n lda bufs)).rwork0 :=
    realToBlasInt_of_bounds hr0 hr1
  obtain ⟨hc, ha⟩ := heevd_run_two_calls cd K jobz uplo n lda bufs hchk
    (not_lt.mpr hq) (not_lt.mpr (hs ▸ hw0)) (not_lt.mpr (hr ▸ hr0))
    (not_lt.mpr hi)
  rw [hs, hr] at ha
  refine ⟨⟨_, _, hc, rfl, rfl, rfl, ?_, ?_, ?_, ?_, rfl, rfl⟩, ha, ?_⟩
  · exact hs
  · exact hs
  · exact hr
  · exact hr
  · intro L
    constructor
    · intro h
      rw [h, truncQ_intCast]
    · intro h
      rw [h, truncQ_intCast]

/-- C21, amended, at a concrete call: the kernel asks for `4`, `7` and `3`
elements and the real invocation receives workspaces of those lengths. -/
theorem heevd_triple_query_witness :
    (run (heevd sampleJobCodes (heevdStubSlots 4 7 3) Job.Vec Uplo.Lower
      10 10) ()).2.allocs = [(Buf.work, 4), (Buf.rwork, 7), (Buf.iwork, 3)] :=
  (heevd_triple_query sampleJobCodes (heevdStubSlots 4 7 3) Job.Vec Uplo.Lower
    10 10 () (by decide) (by decide) (by decide) (by decide) (by decide)
    (by decide) (by decide)).2.1

/-! ## gesdd: the fallback formula without wraparound (C22) -/

theorem toBlasInt_eq_of_bounds {x : Int} (h0 : 0 ≤ x) (h1 : x < 2147483648) :
    toBlasInt x = x :=
  toBlasInt_eq_self ⟨by omega, by omega⟩

/-- C22: for all `m, n ≥ 0` such that `5*mn*mn + 5*mn` and
`2*mx*mn + 2*mn*mn + mn` (`mn = min(m,n)`, `mx = max(m,n)`) are both below
`2^31`, the fallback length computed in `blas_int` arithmetic is the exact
value: `max(1, 7*mn)` for `NoVec` and
`max(1, max(5*mn*mn + 5*mn, 2*mx*mn + 2*mn*mn + mn))` for every other job. -/
theorem lrworkFallback_exact (jobz : Job) (m n : Int) (hm : 0 ≤ m) (hn : 0 ≤ n)
    (h1 : 5 * min m n * min m n + 5 * min m n < 2147483648)
    (h2 : 2 * max m n * min m n + 2 * min m n * min m n + min m n < 2147483648) :
    lrworkFallback jobz m n =
      if jobz = Job.NoVec then max 1 (7 * min m n)
      else max 1 (max (5 * min m n * min m n + 5 * min m n)
        (2 * max m n * min m n + 2 * min m n * min m n + min m n)) := by
  have ha0 : 0 ≤ min m n := le_min hm hn
  have hab : min m n ≤ max m n := min_le_max
  unfold lrworkFallback mul32 add32
  dsimp only
  generalize min m n = a at *
  generalize max m n = b at *
  have ea : toBlasInt a = a := toBlasInt_eq_of_bounds ha0 (by nlinarith)
  simp only [ea]
  rcases eq_or_lt_of_le ha0 with hz | hpos
  · subst hz
    simp only [mul_zero, add_zero, zero_mul]
    have z : toBlasInt 0 = 0 := by decide
    simp only [z, add_zero]
    split <;> rfl
  · have hp : a ≤ a * a := by nlinarith
    have hq : b ≤ b * a := by nlinarith
    have hb0 : 0 ≤ b := le_trans ha0 hab
    have hqq : 0 ≤ b * a := le_trans hb0 hq
    have eb : toBlasInt b = b := toBlasInt_eq_of_bounds hb0 (by nlinarith)
    have e7 : toBlasInt (7 * a) = 7 * a :=
      toBlasInt_eq_of_bounds (by omega) (by nlinarith)
    have e5 : toBlasInt (5 * a) = 5 * a :=
      toBlasInt_eq_of_bounds (by omega) (by nlinarith)
    have e5p : toBlasInt (5 * a * a) = 5 * a * a :=
      toBlasInt_eq_of_bounds (by nlinarith) (by nlinarith)
    have e5s : toBlasInt (5 * a * a + 5 * a) = 5 * a * a + 5 * a :=
      toBlasInt_eq_of_bounds (by nlinarith) h1
    have e2b : toBlasInt (2 * b) = 2 * b :=
      toBlasInt_eq_of_bounds (by omega) (by nlinarith)
    have e2q : toBlasInt (2 * b * a) = 2 * b * a :=
      toBlasInt_eq_of_bounds (by nlinarith) (by nlinarith)
    have e2a : toBlasInt (2 * a) = 2 * a :=
      toBlasInt_eq_of_bounds (by omega) (by nlinarith)
    have e2p : toBlasInt (2 * a * a) = 2 * a * a :=
      toBlasInt_eq_of_bounds (by nlinarith) (by nlinarith)
    have es1 : toBlasInt (2 * b * a + 2 * a * a) = 2 * b * a + 2 * a * a :=
      toBlasInt_eq_of_bounds (by nlinarith) (by nlinarith)
    have es2 : toBlasInt (2 * b * a + 2 * a * a + a) = 2 * b * a + 2 * a * a + a :=
      toBlasInt_eq_of_bounds (by nlinarith) h2
    simp only [eb, e7, e5, e5p, e5s, e2b, e2q, e2a, e2p, es1, es2]
    split <;> rfl

/-- C22 at a concrete size: `m = 300`, `n = 200` with vectors. -/
theorem lrworkFallback_exact_witness :
    lrworkFallback Job.Vec 300 200 =
      if Job.Vec = Job.NoVec then max 1 (7 * min 300 200)
      else max 1 (max (5 * min 300 200 * min 300 200 + 5 * min 300 200)
        (2 * max 300 200 * min 300 200 + 2 * min 300 200 * min 300 200
          + min 300 200)) :=
  lrworkFallback_exact Job.Vec 300 200 (by decide) (by decide) (by decide)
    (by decide)

/-! ## gesdd: a nonzero query answer, and the integer workspace (C23, C24) -/

theorem le_blas_int_max_of_not_overflows {v : Int} (h0 : 0 ≤ v)
    (h : overflows v = false) : v ≤ 2147483647 := by
  unfold overflows abs64 blas_int_max at h
  rw [decide_eq_false_iff_not, if_neg (not_lt.mpr h0)] at h
  omega

/-- C23: in the complex overloads of `gesdd`, when the query leaves in the
real-workspace slot a value whose conversion `r` to `blas_int` is not `0`, the
real invocation (made only after a successful query) is handed an `rwork` of
exactly `r` elements, with no floor; `r` is the integer part of the slot
whenever that integer part is a `blas_int`.  The fallback formula is used only
when `r = 0`. -/
theorem gesdd_trusts_nonzero_query {D : Type} (cd : JobCodes) (t : Elem)
    (K : GesddCall D → GesddOut D) (jobz : Job) (m n lda ldu ldvt : Int)
    (bufs : D) (ht : t.isComplex = true)
    (hnz : realToBlasInt
      (K (gesddQuery cd t jobz m n lda ldu ldvt bufs)).rwork0 ≠ 0)
    (c : GesddCall D)
    (hc : c ∈ (run (gesdd cd t K jobz m n lda ldu ldvt) bufs).2.calls)
    (hreal : c.lwork_ ≠ -1) :
    0 ≤ (K (gesddQuery cd t jobz m n lda ldu ldvt bufs)).info_ ∧
    c.rwork = some (realToBlasInt
      (K (gesddQuery cd t jobz m n lda ldu ldvt bufs)).rwork0) ∧
    (isBlasInt (truncQ (K (gesddQuery cd t jobz m n lda ldu ldvt bufs)).rwork0) →
      c.rwork = some (truncQ
        (K (gesddQuery cd t jobz m n lda ldu ldvt bufs)).rwork0)) ∧
    (∀ s : ℚ, gesddLrwork jobz m n s ≠ realToBlasInt s →
      realToBlasInt s = 0) := by
  obtain ⟨_, h⟩ := gesdd_mem_calls cd t K jobz m n lda ldu ldvt bufs c hc
  rcases h with rfl | ⟨hq, rfl⟩
  · exact absurd rfl hreal
  · have hr : (gesddReal cd t jobz m n lda ldu ldvt
        (K (gesddQuery cd t jobz m n lda ldu ldvt bufs))).rwork =
        some (realToBlasInt
          (K (gesddQuery cd t jobz m n lda ldu ldvt bufs)).rwork0) := by
      show (if t.isComplex = true then some (gesddLrwork jobz m n _) else none) = _
      rw [if_pos ht]
      unfold gesddLrwork
      rw [if_neg hnz]
    refine ⟨hq, hr, ?_, ?_⟩
    · intro hb
      rw [hr, realToBlasInt_of_isBlasInt hb]
    · intro s hs
      by_contra h0
      apply hs
      unfold gesddLrwork
      rw [if_neg h0]

/-- C23 at a concrete call: the query leaves `7` in the real-workspace slot and
the real invocation gets an `rwork` of `7` elements. -/
theorem gesdd_trusts_nonzero_query_witness :
    (gesddReal sampleJobCodes Elem.c Job.Vec 30 20 30 30 20
      (gesddStub 100 7 (gesddQuery sampleJobCodes Elem.c Job.Vec 30 20 30 30 20
        ()))).rwork = some 7 :=
  (gesdd_trusts_nonzero_query sampleJobCodes Elem.c (gesddStub 100 7) Job.Vec 30
    20 30 30 20 () (by decide) (by decide)
    (gesddReal sampleJobCodes Elem.c Job.Vec 30 20 30 30 20
      (gesddStub 100 7 (gesddQuery sampleJobCodes Elem.c Job.Vec 30 20 30 30 20
        ())))
    (by decide) (by decide)).2.2.1 (by decide)

/-- C24: in every overload of `gesdd`, for all `m, n ≥ 0`, the real invocation
(made only after the checks have passed and the query has succeeded) is handed
an integer workspace of exactly `8 * min(m, n)` elements, whatever the query
left; the 64-bit product does not wrap and is not floored, so the length is `0`
exactly when `min(m, n) = 0`. -/
theorem gesdd_iwork_length {D : Type} (cd : JobCodes) (t : Elem)
    (K : GesddCall D → GesddOut D) (jobz : Job) (m n lda ldu ldvt : Int)
    (bufs : D) (hm : 0 ≤ m) (hn : 0 ≤ n) (c : GesddCall D)
    (hc : c ∈ (run (gesdd cd t K jobz m n lda ldu ldvt) bufs).2.calls)
    (hreal : c.lwork_ ≠ -1) :
    gesddChecked m n lda ldu ldvt ∧
    0 ≤ (K (gesddQuery cd t jobz m n lda ldu ldvt bufs)).info_ ∧
    c.iwork = 8 * min m n ∧ (c.iwork = 0 ↔ min m n = 0) := by
  obtain ⟨hchk, h⟩ := gesdd_mem_calls cd t K jobz m n lda ldu ldvt bufs c hc
  rcases h with rfl | ⟨hq, rfl⟩
  · exact absurd rfl hreal
  · have h1 : m ≤ 2147483647 := le_blas_int_max_of_not_overflows hm hchk.1
    have h2 : n ≤ 2147483647 := le_blas_int_max_of_not_overflows hn hchk.2.1
    have h3 : 0 ≤ min m n := le_min hm hn
    have h4 : min m n ≤ m := min_le_left m n
    have hw : wrap64 (8 * min m n) = 8 * min m n := by
      unfold wrap64
      omega
    have hi : (gesddReal cd t jobz m n lda ldu ldvt
        (K (gesddQuery cd t jobz m n lda ldu ldvt bufs))).iwork = 8 * min m n := hw
    refine ⟨hchk, hq, hi, ?_⟩
    rw [hi]
    omega

/-- C24 at a concrete call: `m = 30`, `n = 0` in the `float` overload, an
integer workspace of no element. -/
theorem gesdd_iwork_length_witness :
    gesddChecked 30 0 30 30 1 ∧
    0 ≤ (gesddStub 100 0 (gesddQuery sampleJobCodes Elem.s Job.NoVec 30 0 30 30 1
      ())).info_ ∧
    (gesddReal sampleJobCodes Elem.s Job.NoVec 30 0 30 30 1
      (gesddStub 100 0 (gesddQuery sampleJobCodes Elem.s Job.NoVec 30 0 30 30 1
        ()))).iwork = 8 * min 30 0 ∧
    ((gesddReal sampleJobCodes Elem.s Job.NoVec 30 0 30 30 1
      (gesddStub 100 0 (gesddQuery sampleJobCodes Elem.s Job.NoVec 30 0 30 30 1
        ()))).iwork = 0 ↔ min (30 : Int) 0 = 0) :=
  gesdd_iwork_length sampleJobCodes Elem.s (gesddStub 100 0) Job.NoVec 30 0 30 30
    1 () (by decide) (by decide)
    (gesddReal sampleJobCodes Elem.s Job.NoVec 30 0 30 30 1
      (gesddStub 100 0 (gesddQuery sampleJobCodes Elem.s Job.NoVec 30 0 30 30 1
        ())))
    (by decide) (by decide)

/-! ## Pivot elements are narrowed, not checked (C25) -/

theorem hecon_3_mem_calls {D F : Type} (cd : JobCodes)
    (K : Hecon3Call D F → Hecon3Out F) (uplo : Uplo) (n lda : Int) (anorm : F)
    (mem : Hecon3Mem D F) (c : Hecon3Call D F)
    (hc : c ∈ (run (hecon_3 cd K uplo n lda anorm) mem).2.calls) :
    (overflows n = false ∧ overflows lda = false) ∧ 0 ≤ n ∧
    c = hecon3Args cd uplo n lda anorm mem := by
  by_cases h : overflows n = false ∧ overflows lda = false
  · by_cases hn : n < 0
    · rw [hecon_3_run_negative cd K uplo n lda anorm mem h hn] at hc
      exact absurd hc (List.not_mem_nil c)
    · rw [hecon_3_run_call cd K uplo n lda anorm mem h (not_lt.mp hn)] at hc
      exact ⟨h, not_lt.mp hn, List.mem_singleton.mp hc⟩
  · rw [hecon_3_run_overflow cd K uplo n lda anorm mem h] at hc
    exact absurd hc (List.not_mem_nil c)

theorem hecon_3_overflow_iff {D F : Type} (cd : JobCodes)
    (K : Hecon3Call D F → Hecon3Out F) (uplo : Uplo) (n lda : Int) (anorm : F)
    (mem : Hecon3Mem D F) :
    (run (hecon_3 cd K uplo n lda anorm) mem).1 =
        .error Failure.ArgumentOverflow ↔
      ¬ (overflows n = false ∧ overflows lda = false) := by
  by_cases h : overflows n = false ∧ overflows lda = false
  · by_cases hn : n < 0
    · rw [hecon_3_run_negative cd K uplo n lda anorm mem h hn]
      exact ⟨fun h1 => (by cases h1), fun h1 => absurd h h1⟩
    · rw [hecon_3_run_call cd K uplo n lda anorm mem h (not_lt.mp hn)]
      refine ⟨fun h1 => ?_, fun h1 => absurd h h1⟩
      dsimp only at h1
      split at h1 <;> cases h1
  · rw [hecon_3_run_overflow cd K uplo n lda anorm mem h]
    exact ⟨fun _ => h, fun _ => rfl⟩

theorem toBlasInt_eq_self_iff (x : Int) : toBlasInt x = x ↔ isBlasInt x := by
  constructor
  · intro h
    rw [← h]
    exact isBlasInt_toBlasInt x
  · exact toBlasInt_eq_self

/-- C25: in `gbsvx` and in `hecon_3` the pivot temporary handed to the kernel
is the first `n` caller elements, each reduced modulo `2^32` and read as a
signed 32-bit value; the overflow failure depends on the integer arguments
only, never on a pivot element, and once those pass with `n ≥ 0` the kernel is
reached whatever the pivots are.  The narrowed element equals the caller's
exactly when the caller's lies in `[-2^31, 2^31 - 1]`. -/
theorem pivots_narrowed_unchecked {D D2 F : Type} (cd : Codes) (t : Elem)
    (K : GbsvxCall D → GbsvxOut D) (fact : Factored) (trans : Op)
    (a : GbsvxDims) (mem : GbsvxMem D) (cd2 : JobCodes)
    (K2 : Hecon3Call D2 F → Hecon3Out F) (uplo : Uplo) (n lda : Int) (anorm : F)
    (mem2 : Hecon3Mem D2 F) :
    ((∀ c ∈ (run (gbsvx cd t K fact trans a) mem).2.calls,
        c.ipiv_ = (mem.ipiv.take a.n.toNat).map toBlasInt) ∧
      ((run (gbsvx cd t K fact trans a) mem).1 =
        .error Failure.ArgumentOverflow ↔ ¬ a.checked) ∧
      (a.checked → 0 ≤ a.n →
        (run (gbsvx cd t K fact trans a) mem).2.calls.length = 1)) ∧
    ((∀ c ∈ (run (hecon_3 cd2 K2 uplo n lda anorm) mem2).2.calls,
        c.ipiv_ = (mem2.ipiv.take n.toNat).map toBlasInt) ∧
      ((run (hecon_3 cd2 K2 uplo n lda anorm) mem2).1 =
        .error Failure.ArgumentOverflow ↔
          ¬ (overflows n = false ∧ overflows lda = false)) ∧
      (overflows n = false ∧ overflows lda = false → 0 ≤ n →
        (run (hecon_3 cd2 K2 uplo n lda anorm) mem2).2.calls.length = 1)) ∧
    (∀ x : Int, toBlasInt x = (x + 2147483648) % 4294967296 - 2147483648 ∧
      isBlasInt (toBlasInt x) ∧ (toBlasInt x - x) % 4294967296 = 0 ∧
      (toBlasInt x = x ↔ isBlasInt x)) := by
  refine ⟨⟨?_, gbsvx_overflow_iff cd t K fact trans a mem, ?_⟩,
    ⟨?_, hecon_3_overflow_iff cd2 K2 uplo n lda anorm mem2, ?_⟩, ?_⟩
  · intro c hc
    obtain ⟨_, _, rfl⟩ := gbsvx_mem_calls cd t K fact trans a mem c hc
    rfl
  · intro h hn
    rw [(gbsvx_calls_allocs cd t K fact trans a mem h hn).1]
    rfl
  · intro c hc
    obtain ⟨_, _, rfl⟩ := hecon_3_mem_calls cd2 K2 uplo n lda anorm mem2 c hc
    rfl
  · intro h hn
    rw [hecon_3_run_call cd2 K2 uplo n lda anorm mem2 h hn]
    rfl
  · intro x
    refine ⟨rfl, isBlasInt_toBlasInt x, ?_, toBlasInt_eq_self_iff x⟩
    unfold toBlasInt
    omega

/-- C25 at a concrete call of `gbsvx`: the pivots `2^32 + 1` and `-2^31 - 1`
raise nothing and reach the kernel as `1` and `2^31 - 1`. -/
theorem pivots_narrowed_unchecked_witness :
    (run (gbsvx sampleCodes Elem.s (gbsvxStub 0) Factored.NotFactored Op.NoTrans
      dimsTwo) memWide).2.calls.map (fun c => c.ipiv_) = [[1, 2147483647]] ∧
    (run (gbsvx sampleCodes Elem.s (gbsvxStub 0) Factored.NotFactored Op.NoTrans
      dimsTwo) memWide).2.calls.length = 1 :=
  ⟨by decide,
   (pivots_narrowed_unchecked sampleCodes Elem.s (gbsvxStub 0)
      Factored.NotFactored Op.NoTrans dimsTwo memWide sampleJobCodes
      (hecon3Stub 0) Uplo.Lower 3 3 (1 : Int)
      { ipiv := [2, 1, 3], rcond := 0, bufs := () }).1.2.2
      (by decide) (by decide)⟩

/-! ## ggsvd3: the outputs `k` and `l` (C26) -/

/-- C26: in every call of `ggsvd3` that returns normally the kernel was invoked
exactly twice and `*k`, `*l` on exit are the values the kernel left in its `k`
and `l` slots after the second, real invocation (and the value returned is that
invocation's status); in every call that raises, whatever the failure, `*k` and
`*l` hold their entry values. -/
theorem ggsvd3_outputs_k_l {D JobU JobV JobQ : Type}
    (cd : GgsvdCodes JobU JobV JobQ) (t : Elem) (K : Ggsvd3Call D → Ggsvd3Out D)
    (jobu : JobU) (jobv : JobV) (jobq : JobQ) (a : Ggsvd3Dims)
    (mem : Ggsvd3Mem D) :
    (∀ v, (run (ggsvd3 cd t K jobu jobv jobq a) mem).1 = .ok v →
      ∃ c1 c2, (run (ggsvd3 cd t K jobu jobv jobq a) mem).2.calls = [c1, c2] ∧
        c1.lwork_ = -1 ∧
        (run (ggsvd3 cd t K jobu jobv jobq a) mem).2.mem.k = (K c2).k_ ∧
        (run (ggsvd3 cd t K jobu jobv jobq a) mem).2.mem.l = (K c2).l_ ∧
        v = (K c2).info_) ∧
    (∀ e, (run (ggsvd3 cd t K jobu jobv jobq a) mem).1 = .error e →
      (run (ggsvd3 cd t K jobu jobv jobq a) mem).2.mem.k = mem.k ∧
      (run (ggsvd3 cd t K jobu jobv jobq a) mem).2.mem.l = mem.l) := by
  by_cases h : a.checked
  · generalize hR : run (ggsvd3 cd t K jobu jobv jobq a) mem = R
    obtain ⟨h1, h2, h3, h4, h5, h6, h7, h8⟩ := h
    simp only [ggsvd3, run, bind_eq, pure_eq, seq_throw_if, seq_getMem,
      seq_vector, seq_invoke, seq_modifyMem, seq_ite, seq_raise, seq_ret, seq_seq,
      h1, h2, h3, h4, h5, h6, h7, h8, if_false, if_true, Bool.false_eq_true,
      List.nil_append, List.cons_append, ite_run, raise_apply, ret_apply] at hR
    repeat' split at hR
    all_goals
      subst hR
      constructor
      · intro v hv
        first
          | (cases hv; done)
          | (cases hv; exact ⟨_, _, rfl, rfl, rfl, rfl, rfl⟩)
      · intro e he
        first
          | (cases he; done)
          | exact ⟨rfl, rfl⟩
  · rw [ggsvd3_run_overflow cd t K jobu jobv jobq a mem h]
    constructor
    · intro v hv
      cases hv
    · intro e _
      exact ⟨rfl, rfl⟩

/-- C26 at a concrete call that returns normally: the kernel sets `k = 2` and
`l = 1`, and the caller, who entered with `k = 9`, `l = 9`, reads them. -/
theorem ggsvd3_outputs_k_l_witness :
    ∃ c1 c2, (run (ggsvd3 sampleGgsvdCodes Elem.c (ggsvd3StubKL 10 0 0) true true
        true dimsGgsvd) { k := 9, l := 9, bufs := () }).2.calls = [c1, c2] ∧
      c1.lwork_ = -1 ∧
      (run (ggsvd3 sampleGgsvdCodes Elem.c (ggsvd3StubKL 10 0 0) true true true
        dimsGgsvd) { k := 9, l := 9, bufs := () }).2.mem.k =
        (ggsvd3StubKL 10 0 0 c2).k_ ∧
      (run (ggsvd3 sampleGgsvdCodes Elem.c (ggsvd3StubKL 10 0 0) true true true
        dimsGgsvd) { k := 9, l := 9, bufs := () }).2.mem.l =
        (ggsvd3StubKL 10 0 0 c2).l_ ∧
      0 = (ggsvd3StubKL 10 0 0 c2).info_ :=
  (ggsvd3_outputs_k_l sampleGgsvdCodes Elem.c (ggsvd3StubKL 10 0 0) true true
    true dimsGgsvd { k := 9, l := 9, bufs := () }).1 0 (by decide)

/-! ## gbsvx: a negative order (C27) -/

/-- C27: for every call of `gbsvx` with `-(2^31 - 1) ≤ n < 0`, the order passes
its overflow check, the call fails, the kernel is invoked zero times and the
caller's `ipiv` and `*equed` are unchanged; when the other seven integers pass
their checks too, the failure is that of the construction of the pivot
temporary, the first vector to be built, and no vector has been constructed. -/
theorem gbsvx_negative_order {D : Type} (cd : Codes) (t : Elem)
    (K : GbsvxCall D → GbsvxOut D) (fact : Factored) (trans : Op)
    (a : GbsvxDims) (mem : GbsvxMem D)
    (hlo : -2147483647 ≤ a.n) (hneg : a.n < 0) :
    overflows a.n = false ∧
    (∃ e, (run (gbsvx cd t K fact trans a) mem).1 = .error e) ∧
    (run (gbsvx cd t K fact trans a) mem).2.calls = [] ∧
    (run (gbsvx cd t K fact trans a) mem).2.allocs = [] ∧
    (run (gbsvx cd t K fact trans a) mem).2.mem.ipiv = mem.ipiv ∧
    (run (gbsvx cd t K fact trans a) mem).2.mem.equed = mem.equed ∧
    (a.checked →
      (run (gbsvx cd t K fact trans a) mem).1 = .error Failure.length_error) := by
  have ho : overflows a.n = false := not_overflows_of_symmetric ⟨hlo, by omega⟩
  by_cases h : a.checked
  · rw [gbsvx_run_negative cd t K fact trans a mem h hneg]
    exact ⟨ho, ⟨_, rfl⟩, rfl, rfl, rfl, rfl, fun _ => rfl⟩
  · rw [gbsvx_run_overflow cd t K fact trans a mem h]
    exact ⟨ho, ⟨_, rfl⟩, rfl, rfl, rfl, rfl, fun h1 => absurd h1 h⟩

/-- C27 at a concrete call: order `-1`. -/
theorem gbsvx_negative_order_witness :
    (run (gbsvx sampleCodes Elem.s (gbsvxStub (-1)) Factored.NotFactored
      Op.NoTrans { dimsTwo with n := -1 }) memTwo).1 =
      .error Failure.length_error :=
  (gbsvx_negative_order sampleCodes Elem.s (gbsvxStub (-1)) Factored.NotFactored
    Op.NoTrans { dimsTwo with n := -1 } memTwo (by decide) (by decide)).2.2.2.2.2.2
    (by decide)

end lapack
